import Mathlib

/-!
# In-place serializer: block addressing, allocation and I/O submission

A shallow embedding of `src/serializer/in_place.hpp` (the class template
`in_place_serializer_t<config_t>`) and of the alignment helpers of
`src/utils.hpp`, followed by theorems about them.

Conventions of the embedding.

* Target platform: LP64 Linux, the platform the file is written for
  (`lseek64`, `O_DIRECT`, `O_LARGEFILE`).  `size_t` is a 64-bit unsigned
  integer and `off64_t` a 64-bit signed integer.  Every machine integer is a
  mathematical integer (`Int`) lying in the range of its type; a conversion
  between integer types is the modular one (`int_type.convert`).
* `block_id_t` and `resource_t` are typedefs of `arch/resource.hpp`, which is
  not part of the sources at hand.  `block_id_t` is a parameter of the
  embedding, ranging over the fixed-width integer types of at most 64 bits.
  `resource_t` holds what `open` returns.
* Pointers (`db_path`, `buf`, `callback`, `queue`) are opaque addresses.
* The member functions that change no member are functions of the state; the
  ones that change a member return the new state next to their result; what a
  member function asks of its collaborators is returned as the list of calls.
-/

/-! ## Machine integers -/

/-- Widths of the fixed-width integer types. -/
inductive int_width where
  | w8
  | w16
  | w32
  | w64
  deriving DecidableEq

/-- Number of bits of a width. -/
def int_width.bits : int_width → Nat
  | .w8 => 8
  | .w16 => 16
  | .w32 => 32
  | .w64 => 64

/-- A fixed-width integer type: its width and its signedness. -/
structure int_type where
  width : int_width
  is_signed : Bool
  deriving DecidableEq

/-- Number of values of the type, `2 ^ bits`. -/
def int_type.modulus (T : int_type) : Int := 2 ^ T.width.bits

/-- Least value of the type. -/
def int_type.min_value (T : int_type) : Int :=
  if T.is_signed then -(2 ^ (T.width.bits - 1)) else 0

/-- Greatest value of the type. -/
def int_type.max_value (T : int_type) : Int := T.min_value + T.modulus - 1

/-- Conversion of an integer value to the type `T`: the value of `T` congruent
to `v` modulo `2 ^ bits` (what the target does on every integer conversion). -/
def int_type.convert (T : int_type) (v : Int) : Int :=
  (v - T.min_value) % T.modulus + T.min_value

/-- The type `size_t`: 64-bit unsigned. -/
def size_t : int_type := ⟨.w64, false⟩

/-- The type `off64_t`: 64-bit signed. -/
def off64_t : int_type := ⟨.w64, true⟩

/-! ## The serializer state -/

/-- Data members of `in_place_serializer_t`: `size_t block_size`,
`resource_t dbfd`, `off64_t dbsize`. -/
structure in_place_serializer_t where
  block_size : Int
  dbfd : Int
  dbsize : Int
  deriving DecidableEq

/-! ## Construction -/

/-- What the operating system answers to the three system calls of the
constructor: `open`, `lseek64(dbfd, 0, SEEK_END)`, `lseek64(dbfd, 0, SEEK_SET)`. -/
structure os_results where
  open_ret : Int
  lseek_end_ret : Int
  lseek_set_ret : Int
  deriving DecidableEq

/-- Calls the constructor makes to its collaborators, in program order. -/
inductive ctor_call where
  | open_file (db_path : Nat)
  | lseek64_end (fd : Int)
  | lseek64_set (fd : Int)
  | create_db (fd : Int)
  deriving DecidableEq

/-- Whether a call of the constructor is the bootstrap call `create_db`. -/
def ctor_call.is_create_db : ctor_call → Bool
  | ctor_call.create_db _ => true
  | _ => false

/-- Modelled from the spec: `check(msg, cond)` is declared outside the sources
at hand; by the specification a failed check is fatal, so `check` stops the
construction with `msg` when `cond` holds and does nothing otherwise. -/
def check (msg : String) (cond : Bool) : Except String Unit :=
  if cond then Except.error msg else Except.ok ()

/-- Outcome of a construction: the calls made, and either the serializer or the
message of the fatal check. -/
structure ctor_result where
  calls : List ctor_call
  outcome : Except String in_place_serializer_t

/-- The constructor `in_place_serializer_t(char *db_path, size_t _block_size)`
(a member cannot bear the name of its structure here, hence `construct`). -/
def in_place_serializer_t.construct (os : os_results) (db_path : Nat)
    (_block_size : Int) : ctor_result :=
  -- : block_size(_block_size), dbfd(-1), dbsize(-1)
  let s0 : in_place_serializer_t := { block_size := _block_size, dbfd := -1, dbsize := -1 }
  -- dbfd = open(db_path, ...)
  let s1 := { s0 with dbfd := os.open_ret }
  let calls1 := [ctor_call.open_file db_path]
  match check "Could not open database file" (s1.dbfd == -1) with
  | Except.error e => ⟨calls1, Except.error e⟩
  | Except.ok _ =>
    -- dbsize = lseek64(dbfd, 0, SEEK_END)
    let s2 := { s1 with dbsize := os.lseek_end_ret }
    let calls2 := calls1 ++ [ctor_call.lseek64_end s1.dbfd]
    match check "Could not determine database file size" (s2.dbsize == -1) with
    | Except.error e => ⟨calls2, Except.error e⟩
    | Except.ok _ =>
      -- off64_t res = lseek64(dbfd, 0, SEEK_SET)
      let res := os.lseek_set_ret
      let calls3 := calls2 ++ [ctor_call.lseek64_set s2.dbfd]
      match check "Could not reset database file position" (res == -1) with
      | Except.error e => ⟨calls3, Except.error e⟩
      | Except.ok _ =>
        if s2.dbsize == 0 then
          -- btree_admin_t::create_db(dbfd); dbsize = block_size;
          ⟨calls3 ++ [ctor_call.create_db s2.dbfd],
            Except.ok { s2 with dbsize := off64_t.convert s2.block_size }⟩
        else
          ⟨calls3, Except.ok s2⟩

/-! ## Address translation -/

/-- Member `off64_t id_to_offset(block_id_t id) { return id * block_size; }`.
The product is formed in `size_t` (the operand `id` is converted to it) and
returned as an `off64_t`. -/
def in_place_serializer_t.id_to_offset (s : in_place_serializer_t) (id : Int) : Int :=
  off64_t.convert (size_t.convert (size_t.convert id * s.block_size))

/-! ## I/O submission -/

/-- The nested struct `write`: `block_id`, `buf`, `callback`. -/
structure write where
  block_id : Int
  buf : Nat
  callback : Nat
  deriving DecidableEq

/-- Modelled from the spec: `io_calls_t::aio_write_t` is declared outside the
sources at hand; it is the record {handle, offset, length, buffer, completion}
of the engine interface, with the five fields `do_write` assigns. -/
structure aio_write_t where
  resource : Int
  offset : Int
  length : Int
  buf : Nat
  callback : Nat
  deriving DecidableEq

instance : Inhabited aio_write_t := ⟨⟨0, 0, 0, 0, 0⟩⟩

/-- Calls made on `queue->iosys`, with their arguments. -/
inductive iosys_call where
  | schedule_aio_read (resource : Int) (offset : Int) (length : Int) (buf : Nat)
      (queue : Nat) (callback : Nat)
  | schedule_aio_write (aio_writes : List aio_write_t) (num_writes : Int) (queue : Nat)
  deriving DecidableEq

/-- Member `do_read`: one call of `schedule_aio_read`. -/
def in_place_serializer_t.do_read (s : in_place_serializer_t) (queue : Nat)
    (block_id : Int) (buf : Nat) (callback : Nat) : List iosys_call :=
  [iosys_call.schedule_aio_read s.dbfd (s.id_to_offset block_id) s.block_size buf queue callback]

/-- The loop `for (i = 0; i < num_writes; i++)` of `do_write`, from index `i`
on: it fills `aio_writes[i]` from `writes[i]`. -/
def in_place_serializer_t.do_write_loop (s : in_place_serializer_t) (writes : Nat → write)
    (num_writes : Int) (i : Nat) (aio_writes : Array aio_write_t) : Array aio_write_t :=
  if (i : Int) < num_writes then
    s.do_write_loop writes num_writes (i + 1)
      (aio_writes.setD i
        { resource := s.dbfd
          offset := s.id_to_offset (writes i).block_id
          length := s.block_size
          buf := (writes i).buf
          callback := (writes i).callback })
  else aio_writes
termination_by (num_writes - i).toNat
decreasing_by omega

/-- Member `do_write(queue, writes, num_writes)`: `writes` is the array the
pointer designates.  The local array `aio_writes[num_writes]` has `num_writes`
entries, none when `num_writes` is not positive; its entries are unset before
the loop (here: the default entry).  When `num_writes` is not positive the loop
does not run; the submission is made in every case, with `num_writes` as it
was passed. -/
def in_place_serializer_t.do_write (s : in_place_serializer_t) (queue : Nat)
    (writes : Nat → write) (num_writes : Int) : Option (List iosys_call) :=
  let aio_writes := s.do_write_loop writes num_writes 0 (Array.mkArray num_writes.toNat default)
  some [iosys_call.schedule_aio_write aio_writes.toList num_writes queue]

/-! ## Block identifiers -/

/-- The constant `static const block_id_t null_block_id = -1`. -/
def in_place_serializer_t.null_block_id (block_id_t : int_type) : Int :=
  block_id_t.convert (-1)

/-- The static member `is_block_id_null`: `block_id == null_block_id`. -/
def in_place_serializer_t.is_block_id_null (block_id_t : int_type) (block_id : Int) : Bool :=
  block_id == in_place_serializer_t.null_block_id block_id_t

/-- Member `gen_block_id`.  Both `dbsize / block_size` and `dbsize += block_size`
are evaluated in `size_t` (the `off64_t` operand is converted to it), the
results are stored in an `off64_t`, and the identifier is returned as a
`block_id_t`.  A division by zero has no result. -/
def in_place_serializer_t.gen_block_id (block_id_t : int_type) (s : in_place_serializer_t) :
    Option (Int × in_place_serializer_t) :=
  if s.block_size = 0 then none
  else
    let new_block_id := off64_t.convert (size_t.convert s.dbsize / s.block_size)
    let s1 := { s with
      dbsize := off64_t.convert (size_t.convert (size_t.convert s.dbsize + s.block_size)) }
    some (block_id_t.convert new_block_id, s1)

/-- Member `get_superblock_id() { return 0; }`. -/
def in_place_serializer_t.get_superblock_id (block_id_t : int_type)
    (_s : in_place_serializer_t) : Int :=
  block_id_t.convert 0

/-- Result of `n` successive calls of `gen_block_id` on one instance: the
identifiers returned, in call order, and the state after the last call. -/
def in_place_serializer_t.gen_block_ids (block_id_t : int_type) :
    Nat → in_place_serializer_t → Option (List Int × in_place_serializer_t)
  | 0, s => some ([], s)
  | n + 1, s =>
    match s.gen_block_id block_id_t with
    | none => none
    | some (id, s1) =>
      match in_place_serializer_t.gen_block_ids block_id_t n s1 with
      | none => none
      | some (ids, s2) => some (id :: ids, s2)

/-! ## The member functions as state transformers -/

/-- A call of a member function of the serializer, with its arguments. -/
inductive member_call where
  | id_to_offset (id : Int)
  | do_read (queue : Nat) (block_id : Int) (buf : Nat) (callback : Nat)
  | do_write (queue : Nat) (writes : Nat → write) (num_writes : Int)
  | is_block_id_null (block_id : Int)
  | gen_block_id
  | get_superblock_id

/-- What a call of a member function gives back to its caller: the offset of
`id_to_offset`, the calls `do_read` and `do_write` made on `queue->iosys`, the
truth value of `is_block_id_null`, the identifier of `gen_block_id` and of
`get_superblock_id`. -/
inductive member_result where
  | offset (value : Int)
  | submitted (calls : List iosys_call)
  | is_null (value : Bool)
  | block_id (id : Int)

/-- One call of a member function on the state `s`: what the member function
gives back, and the data members after the call; nothing when the call has no
result.  The body of `gen_block_id` assigns `dbsize`; the bodies of
`id_to_offset`, `do_read`, `do_write` and `get_superblock_id` assign no member,
and `is_block_id_null` is static. -/
def in_place_serializer_t.invoke (block_id_t : int_type) (s : in_place_serializer_t) :
    member_call → Option (member_result × in_place_serializer_t)
  | member_call.id_to_offset id => some (member_result.offset (s.id_to_offset id), s)
  | member_call.do_read queue block_id buf callback =>
    some (member_result.submitted (s.do_read queue block_id buf callback), s)
  | member_call.do_write queue writes num_writes =>
    (s.do_write queue writes num_writes).map (fun calls => (member_result.submitted calls, s))
  | member_call.is_block_id_null block_id =>
    some (member_result.is_null
      (in_place_serializer_t.is_block_id_null block_id_t block_id), s)
  | member_call.gen_block_id =>
    (s.gen_block_id block_id_t).map (fun r => (member_result.block_id r.1, r.2))
  | member_call.get_superblock_id =>
    some (member_result.block_id (s.get_superblock_id block_id_t), s)

/-! ## What happens during a call of `do_write` -/

/-- What can happen while a member function runs: a call on `queue->iosys` is
made, or a completion callback is invoked. -/
inductive io_event where
  | submitted (c : iosys_call)
  | completed (callback : Nat)
  deriving DecidableEq

/-- Modelled from the spec: the asynchronous I/O engine behind `queue->iosys` is
outside the sources at hand.  An engine is described by the callbacks it invokes
inside a call made to it, before that call returns; by the specification an
engine must invoke none there. -/
structure io_engine where
  inline_completions : iosys_call → List Nat

/-- The events of one call of `do_write`, in order: the body of `do_write` fills
the local array and makes its call on `queue->iosys`, inside which the engine
does what it does; then `do_write` returns. -/
def in_place_serializer_t.do_write_events (s : in_place_serializer_t) (engine : io_engine)
    (queue : Nat) (writes : Nat → write) (num_writes : Int) : Option (List io_event) :=
  (s.do_write queue writes num_writes).map
    (fun calls => calls.flatMap
      (fun c => io_event.submitted c :: (engine.inline_completions c).map io_event.completed))

/-! ## Alignment helpers of `utils.hpp`

The function templates `ceil_aligned`, `ceil_divide`, `floor_aligned` and
`ceil_modulo` are instantiated at integer types.  Their arithmetic is that of
the mathematical integers with the truncating `/` and `%` of C++
(`Int.tdiv`, `Int.tmod`): operands and results are taken in the range of the
types at which the template is instantiated.  A division by zero has no result. -/

/-- Template `ceil_aligned`:
`value + alignment - (((value + alignment - 1) % alignment) + 1)`. -/
def ceil_aligned (value alignment : Int) : Option Int :=
  if alignment = 0 then none
  else some (value + alignment - (Int.tmod (value + alignment - 1) alignment + 1))

/-- Template `ceil_divide`: `(dividend + alignment - 1) / alignment`. -/
def ceil_divide (dividend alignment : Int) : Option Int :=
  if alignment = 0 then none
  else some (Int.tdiv (dividend + alignment - 1) alignment)

/-- Template `floor_aligned`: `value - (value % alignment)`. -/
def floor_aligned (value alignment : Int) : Option Int :=
  if alignment = 0 then none
  else some (value - Int.tmod value alignment)

/-- Template `ceil_modulo`: `x = (value + alignment - 1) % alignment`, then
`value + alignment - ((x < 0 ? x + alignment : x) + 1)`. -/
def ceil_modulo (value alignment : Int) : Option Int :=
  if alignment = 0 then none
  else
    let x := Int.tmod (value + alignment - 1) alignment
    some (value + alignment - ((if x < 0 then x + alignment else x) + 1))

/-- Function `divides(int64_t x, int64_t y) { return y % x == 0; }`. -/
def divides (x y : Int) : Option Bool :=
  if x = 0 then none
  else some (Int.tmod y x == 0)

/-! ## Facts about the machine integers -/

/-- A value in the range of `T` is left as it is by the conversion to `T`. -/
theorem int_type.convert_of_range (T : int_type) (v : Int)
    (hlo : T.min_value ≤ v) (hhi : v ≤ T.max_value) : T.convert v = v := by
  unfold int_type.convert
  unfold int_type.max_value at hhi
  rw [Int.emod_eq_of_lt (by omega) (by omega)]
  omega

/-- Every integer type holds the values from 0 to 127. -/
theorem int_type.small_range (T : int_type) : T.min_value ≤ 0 ∧ 127 ≤ T.max_value := by
  obtain ⟨w, sg⟩ := T
  cases w <;> cases sg <;> decide

/-- Bounds of `off64_t`. -/
theorem off64_t_bounds : off64_t.min_value = -9223372036854775808 ∧
    off64_t.max_value = 9223372036854775807 := by
  decide

/-- Bounds of `size_t`. -/
theorem size_t_bounds : size_t.min_value = 0 ∧ size_t.max_value = 18446744073709551615 := by
  decide

/-- A non-negative `off64_t` value is left as it is by the conversion to `size_t`. -/
theorem size_t_convert_of_off64 (v : Int) (h0 : 0 ≤ v) (h1 : v ≤ off64_t.max_value) :
    size_t.convert v = v := by
  apply int_type.convert_of_range
  · rw [size_t_bounds.1]; exact h0
  · rw [size_t_bounds.2]; rw [off64_t_bounds.2] at h1; omega

/-- A non-negative value up to the greatest `off64_t` is left as it is by the
conversion to `off64_t`. -/
theorem off64_t_convert_of_nonneg (v : Int) (h0 : 0 ≤ v) (h1 : v ≤ off64_t.max_value) :
    off64_t.convert v = v := by
  apply int_type.convert_of_range
  · rw [off64_t_bounds.1]; omega
  · exact h1

/-! ## Allocation while the cursor does not overflow -/

/-- One call of `gen_block_id` on a state whose cursor is non-negative and
stays in `off64_t` after the call: the quotient is returned and the cursor
advances by one block. -/
theorem gen_block_id_in_range (T : int_type) (s : in_place_serializer_t)
    (hbs : 0 < s.block_size) (hd : 0 ≤ s.dbsize)
    (hov : s.dbsize + s.block_size ≤ off64_t.max_value) :
    s.gen_block_id T =
      some (T.convert (s.dbsize / s.block_size),
        { s with dbsize := s.dbsize + s.block_size }) := by
  have hq0 : 0 ≤ s.dbsize / s.block_size := Int.ediv_nonneg hd (le_of_lt hbs)
  have hq1 : s.dbsize / s.block_size ≤ s.dbsize :=
    Int.ediv_le_self _ hd
  unfold in_place_serializer_t.gen_block_id
  rw [if_neg (by omega)]
  rw [size_t_convert_of_off64 s.dbsize hd (by omega)]
  rw [size_t_convert_of_off64 (s.dbsize + s.block_size) (by omega) hov]
  rw [off64_t_convert_of_nonneg (s.dbsize + s.block_size) (by omega) hov]
  rw [off64_t_convert_of_nonneg (s.dbsize / s.block_size) hq0 (by omega)]

/-- Closed form of `n` successive calls while the cursor stays in `off64_t`. -/
theorem gen_block_ids_in_range (T : int_type) (n : Nat) (s : in_place_serializer_t)
    (hbs : 0 < s.block_size) (hd : 0 ≤ s.dbsize)
    (hov : s.dbsize + n * s.block_size ≤ off64_t.max_value) :
    s.gen_block_ids T n =
      some ((List.range n).map (fun (j : Nat) => T.convert (s.dbsize / s.block_size + (j : Int))),
        { s with dbsize := s.dbsize + n * s.block_size }) := by
  induction n generalizing s with
  | zero => simp [in_place_serializer_t.gen_block_ids]
  | succ n ih =>
    have hmul : 0 ≤ (n : Int) * s.block_size :=
      Int.mul_nonneg (Int.ofNat_nonneg n) (le_of_lt hbs)
    have hexp : ((n + 1 : Nat) : Int) * s.block_size = n * s.block_size + s.block_size := by
      push_cast; ring
    rw [hexp] at hov
    unfold in_place_serializer_t.gen_block_ids
    rw [gen_block_id_in_range T s hbs hd (by omega)]
    have hstep := ih { s with dbsize := s.dbsize + s.block_size } hbs
      (by show 0 ≤ s.dbsize + s.block_size; omega)
      (by show s.dbsize + s.block_size + n * s.block_size ≤ off64_t.max_value; omega)
    simp only [hstep]
    have hq : (s.dbsize + s.block_size) / s.block_size = s.dbsize / s.block_size + 1 := by
      have := Int.add_mul_ediv_right s.dbsize 1 (ne_of_gt hbs)
      simpa using this
    simp only [hq, List.range_succ_eq_map, List.map_cons, List.map_map]
    congr 2
    · simp only [List.cons.injEq, Nat.cast_zero, add_zero, List.map_inj_left, Function.comp,
        Nat.succ_eq_add_one, true_and]
      intro j _
      congr 1
      push_cast
      ring
    · rw [hexp]; congr 1; ring

/-! ## Allocation in general: the cursor wraps around modulo `2 ^ 64` -/

/-- The conversion to `size_t`, with its constants written out. -/
theorem size_t_convert_eq (v : Int) : size_t.convert v = v % 18446744073709551616 := by
  simp [int_type.convert, size_t, int_type.min_value, int_type.modulus, int_width.bits]

/-- The conversion to `off64_t`, with its constants written out. -/
theorem off64_t_convert_eq (v : Int) :
    off64_t.convert v = (v + 9223372036854775808) % 18446744073709551616 - 9223372036854775808 := by
  simp [int_type.convert, off64_t, int_type.min_value, int_type.modulus, int_width.bits]
  rfl

/-- One call of `gen_block_id` on any state with a non-zero block size. -/
theorem gen_block_id_wrap (T : int_type) (s : in_place_serializer_t) (hbs : s.block_size ≠ 0) :
    s.gen_block_id T =
      some (T.convert (off64_t.convert (size_t.convert s.dbsize / s.block_size)),
        { s with dbsize := off64_t.convert (s.dbsize + s.block_size) }) := by
  unfold in_place_serializer_t.gen_block_id
  rw [if_neg hbs]
  have h : off64_t.convert (size_t.convert (size_t.convert s.dbsize + s.block_size)) =
      off64_t.convert (s.dbsize + s.block_size) := by
    simp only [size_t_convert_eq, off64_t_convert_eq]
    omega
  simp only [h]

/-- Closed form of `n` successive calls on any state with a non-zero block size:
the cursor advances modulo `2 ^ 64`. -/
theorem gen_block_ids_wrap (T : int_type) (n : Nat) (s : in_place_serializer_t)
    (hbs : s.block_size ≠ 0) (hd : off64_t.convert s.dbsize = s.dbsize) :
    s.gen_block_ids T n =
      some ((List.range n).map (fun (j : Nat) =>
          T.convert (off64_t.convert (size_t.convert (s.dbsize + j * s.block_size) / s.block_size))),
        { s with dbsize := off64_t.convert (s.dbsize + n * s.block_size) }) := by
  induction n generalizing s with
  | zero => simp [in_place_serializer_t.gen_block_ids, hd]
  | succ n ih =>
    unfold in_place_serializer_t.gen_block_ids
    rw [gen_block_id_wrap T s hbs]
    have hstep := ih { s with dbsize := off64_t.convert (s.dbsize + s.block_size) } hbs
      (by simp only [off64_t_convert_eq]; omega)
    simp only [hstep]
    simp only [List.range_succ_eq_map, List.map_cons, List.map_map]
    congr 2
    · simp only [List.cons.injEq, Nat.cast_zero, zero_mul, add_zero, List.map_inj_left,
        Function.comp, Nat.succ_eq_add_one, true_and]
      intro j _
      congr 3
      have e : s.dbsize + ((j + 1 : Nat) : Int) * s.block_size
          = (s.dbsize + s.block_size) + j * s.block_size := by push_cast; ring
      rw [e]
      generalize (j : Int) * s.block_size = m
      simp only [size_t_convert_eq, off64_t_convert_eq]
      omega
    · congr 1
      have e : s.dbsize + ((n + 1 : Nat) : Int) * s.block_size
          = (s.dbsize + s.block_size) + n * s.block_size := by push_cast; ring
      rw [e]
      generalize (n : Int) * s.block_size = m
      simp only [off64_t_convert_eq]
      omega

/-! ## C1: identifiers are handed out in increasing order -/

/-- The identifiers of `n` calls in range, when they fit `block_id_t`: the
quotient of the first call, then its successors. -/
theorem gen_block_ids_fit (T : int_type) (n : Nat) (s : in_place_serializer_t)
    (hbs : 0 < s.block_size) (hd : 0 ≤ s.dbsize)
    (hov : s.dbsize + n * s.block_size ≤ off64_t.max_value)
    (hfit : s.dbsize / s.block_size + n ≤ T.max_value + 1) :
    s.gen_block_ids T n =
      some ((List.range n).map (fun (j : Nat) => s.dbsize / s.block_size + (j : Int)),
        { s with dbsize := s.dbsize + n * s.block_size }) := by
  rw [gen_block_ids_in_range T n s hbs hd hov]
  have hq0 : 0 ≤ s.dbsize / s.block_size := Int.ediv_nonneg hd (le_of_lt hbs)
  congr 2
  apply List.map_congr_left
  intro j hj
  have hjn : j < n := List.mem_range.mp hj
  apply int_type.convert_of_range
  · have := (int_type.small_range T).1; omega
  · omega

/-- C1 (amended): on a serializer with `block_size > 0` and a non-negative
cursor, as long as the cursor does not overflow `off64_t` over the `n` calls
(`dbsize + n * block_size ≤ 2^63 - 1`) and the identifiers fit `block_id_t`,
`n` successive `gen_block_id` calls all return, each identifier is strictly
larger than every earlier one, and the `n` identifiers are pairwise distinct. -/
theorem gen_block_id_strictly_increasing (T : int_type) (n : Nat) (s : in_place_serializer_t)
    (hbs : 0 < s.block_size) (hd : 0 ≤ s.dbsize)
    (hov : s.dbsize + n * s.block_size ≤ off64_t.max_value)
    (hfit : s.dbsize / s.block_size + n ≤ T.max_value + 1) :
    ∃ ids s1, s.gen_block_ids T n = some (ids, s1) ∧ ids.length = n ∧
      ids.Pairwise (fun a b => a < b) ∧ ids.Nodup := by
  refine ⟨_, _, gen_block_ids_fit T n s hbs hd hov hfit, by simp, ?_, ?_⟩
  · rw [List.pairwise_map]
    exact List.Pairwise.imp (fun {a b} (h : a < b) => by omega) (List.pairwise_lt_range n)
  · apply List.Nodup.map
    · intro a b h
      simp only at h
      omega
    · exact List.nodup_range n

/-- Witness of C1 (amended): three calls on a fresh 4096-byte-block serializer. -/
theorem gen_block_id_strictly_increasing_witness :
    (0 : Int) < 4096 ∧
    ∃ ids s1, in_place_serializer_t.gen_block_ids off64_t 3 ⟨4096, 3, 4096⟩ = some (ids, s1) ∧
      ids.length = 3 ∧ ids.Pairwise (fun a b => a < b) ∧ ids.Nodup :=
  ⟨by decide,
    gen_block_id_strictly_increasing off64_t 3 ⟨4096, 3, 4096⟩
      (by decide) (by decide) (by decide) (by decide)⟩

/-- C1 (counterexample): with `block_size = 2^62` a serializer constructed over
an empty file returns, on five successive calls, the identifiers 1, 2, 3, 0, 1
whatever `block_id_t` is: the fourth is smaller than the earlier ones and the
fifth repeats the first, because the cursor wraps around modulo `2^64`. -/
theorem gen_block_id_wraps_around :
    (in_place_serializer_t.construct ⟨3, 0, 0⟩ 0 (2 ^ 62)).outcome
      = Except.ok ⟨2 ^ 62, 3, 2 ^ 62⟩ ∧
    (fun T => (in_place_serializer_t.gen_block_ids T 5 ⟨2 ^ 62, 3, 2 ^ 62⟩).map Prod.fst)
      = (fun _ => some [1, 2, 3, 0, 1]) ∧
    ¬ List.Pairwise (fun a b => a < b) [(1 : Int), 2, 3, 0, 1] ∧
    ¬ List.Nodup [(1 : Int), 2, 3, 0, 1] := by
  refine ⟨rfl, ?_, by decide, by decide⟩
  funext T
  obtain ⟨w, sg⟩ := T
  cases w <;> cases sg <;> rfl

/-! ## C2: the address translation -/

/-- C2 (amended): for every identifier `id ≥ 0` and every block size (a
`size_t` value, so `≥ 0`) whose product is representable in the return type
(`id * block_size ≤ 2^63 - 1`), `id_to_offset id` is the integer product
`id * block_size` exactly. -/
theorem id_to_offset_exact (s : in_place_serializer_t) (id : Int)
    (hid : 0 ≤ id) (hbs : 0 ≤ s.block_size)
    (hprod : id * s.block_size ≤ off64_t.max_value) :
    s.id_to_offset id = id * s.block_size := by
  unfold in_place_serializer_t.id_to_offset
  have hmax := off64_t_bounds.2
  rcases eq_or_lt_of_le hbs with h0 | hpos
  · rw [← h0]
    simp only [mul_zero]
    decide
  · have hle : id ≤ id * s.block_size := le_mul_of_one_le_right hid (by omega)
    have hp0 : 0 ≤ id * s.block_size := Int.mul_nonneg hid hbs
    rw [size_t_convert_of_off64 id hid (by omega)]
    rw [size_t_convert_of_off64 _ hp0 hprod]
    rw [off64_t_convert_of_nonneg _ hp0 hprod]

/-- Witness of C2 (amended): block 2 of a file of 4096-byte blocks. -/
theorem id_to_offset_exact_witness :
    (0 : Int) ≤ 2 ∧ (0 : Int) ≤ 4096 ∧ (2 : Int) * 4096 ≤ off64_t.max_value ∧
    in_place_serializer_t.id_to_offset ⟨4096, 3, 12288⟩ 2 = 2 * 4096 :=
  ⟨by decide, by decide, by decide,
    id_to_offset_exact ⟨4096, 3, 12288⟩ 2 (by decide) (by decide) (by decide)⟩

/-- C2 (counterexample): with `block_size = 2^62` the identifier 2, which the
second `gen_block_id` call on a fresh serializer returns, is translated to
`-2^63` and not to the product `2 * 2^62 = 2^63`; and with `block_size = 4096`
the identifier `2^52` is translated to 0 and not to `2^64`. -/
theorem id_to_offset_overflows :
    (in_place_serializer_t.gen_block_ids off64_t 2 ⟨2 ^ 62, 3, 2 ^ 62⟩).map Prod.fst
      = some [1, 2] ∧
    in_place_serializer_t.id_to_offset ⟨2 ^ 62, 3, 2 ^ 62⟩ 2 = -(2 ^ 63) ∧
    in_place_serializer_t.id_to_offset ⟨2 ^ 62, 3, 2 ^ 62⟩ 2 ≠ 2 * 2 ^ 62 ∧
    in_place_serializer_t.id_to_offset ⟨4096, 3, 4096⟩ (2 ^ 52) = 0 ∧
    in_place_serializer_t.id_to_offset ⟨4096, 3, 4096⟩ (2 ^ 52) ≠ 2 ^ 52 * 4096 := by
  refine ⟨rfl, by decide, by decide, by decide, by decide⟩

/-! ## Construction over an empty and over an existing file -/

/-- Construction over an empty file (the open and both seeks succeed, the
length found is 0): the four calls made and the state produced. -/
theorem construct_empty (os : os_results) (db_path : Nat) (bs : Int)
    (hopen : os.open_ret ≠ -1) (hlen : os.lseek_end_ret = 0) (hset : os.lseek_set_ret ≠ -1) :
    in_place_serializer_t.construct os db_path bs =
      ⟨[ctor_call.open_file db_path, ctor_call.lseek64_end os.open_ret,
          ctor_call.lseek64_set os.open_ret, ctor_call.create_db os.open_ret],
        Except.ok ⟨bs, os.open_ret, off64_t.convert bs⟩⟩ := by
  simp [in_place_serializer_t.construct, check, hopen, hlen, hset]

/-- Construction over a non-empty file (the open and both seeks succeed, the
length found is neither 0 nor -1): the three calls made and the state
produced. -/
theorem construct_existing (os : os_results) (db_path : Nat) (bs : Int)
    (hopen : os.open_ret ≠ -1) (hlen0 : os.lseek_end_ret ≠ 0) (hlen1 : os.lseek_end_ret ≠ -1)
    (hset : os.lseek_set_ret ≠ -1) :
    in_place_serializer_t.construct os db_path bs =
      ⟨[ctor_call.open_file db_path, ctor_call.lseek64_end os.open_ret,
          ctor_call.lseek64_set os.open_ret],
        Except.ok ⟨bs, os.open_ret, os.lseek_end_ret⟩⟩ := by
  simp [in_place_serializer_t.construct, check, hopen, hlen0, hlen1, hset]

/-- The identifier a call of `gen_block_id` returns when the cursor is a
non-negative `off64_t` value and the quotient fits `block_id_t`; the cursor
may overflow in that call. -/
theorem gen_block_id_fst (T : int_type) (s : in_place_serializer_t)
    (hbs : 0 < s.block_size) (hd : 0 ≤ s.dbsize) (hmax : s.dbsize ≤ off64_t.max_value)
    (hfit : s.dbsize / s.block_size ≤ T.max_value) :
    (s.gen_block_id T).map Prod.fst = some (s.dbsize / s.block_size) := by
  have hq0 : 0 ≤ s.dbsize / s.block_size := Int.ediv_nonneg hd (le_of_lt hbs)
  have hq1 : s.dbsize / s.block_size ≤ s.dbsize := Int.ediv_le_self _ hd
  rw [gen_block_id_wrap T s (by omega)]
  simp only [Option.map_some']
  rw [size_t_convert_of_off64 s.dbsize hd hmax]
  rw [off64_t_convert_of_nonneg _ hq0 (by omega)]
  rw [int_type.convert_of_range T _ (by have := (int_type.small_range T).1; omega) hfit]

/-! ## C3: bootstrap of an empty file -/

/-- The superblock identifier is 0 whatever `block_id_t` is. -/
theorem get_superblock_id_eq_zero (T : int_type) (s : in_place_serializer_t) :
    s.get_superblock_id T = 0 := by
  unfold in_place_serializer_t.get_superblock_id
  exact int_type.convert_of_range T 0 (int_type.small_range T).1
    (by have := (int_type.small_range T).2; omega)

/-- C3 (amended): for every block size with `0 < block_size ≤ 2^63 - 1`,
constructing a serializer over an empty file (the open and both seeks succeed,
the length found is 0) calls `create_db` exactly once and leaves the cursor
`dbsize` equal to `block_size`; on the instance `get_superblock_id` is 0 and
the first `gen_block_id` call returns 1. -/
theorem construct_over_empty_file (T : int_type) (os : os_results) (db_path : Nat) (bs : Int)
    (hbs : 0 < bs) (hmax : bs ≤ off64_t.max_value)
    (hopen : os.open_ret ≠ -1) (hlen : os.lseek_end_ret = 0) (hset : os.lseek_set_ret ≠ -1) :
    ∃ calls s, in_place_serializer_t.construct os db_path bs = ⟨calls, Except.ok s⟩ ∧
      calls.countP ctor_call.is_create_db = 1 ∧
      s.block_size = bs ∧ s.dbsize = bs ∧
      s.get_superblock_id T = 0 ∧
      (s.gen_block_id T).map Prod.fst = some 1 := by
  refine ⟨_, _, construct_empty os db_path bs hopen hlen hset, rfl, rfl, ?_,
    get_superblock_id_eq_zero T _, ?_⟩
  · exact off64_t_convert_of_nonneg bs (le_of_lt hbs) hmax
  · rw [off64_t_convert_of_nonneg bs (le_of_lt hbs) hmax]
    have h1 : bs / bs = 1 := Int.ediv_self (ne_of_gt hbs)
    have h := gen_block_id_fst T ⟨bs, os.open_ret, bs⟩ hbs (le_of_lt hbs) hmax
      (by show bs / bs ≤ T.max_value; rw [h1]; have := (int_type.small_range T).2; omega)
    rw [h]
    exact congrArg some h1

/-- Witness of C3 (amended): an empty file, descriptor 3, blocks of 4096 bytes. -/
theorem construct_over_empty_file_witness :
    (0 : Int) < 4096 ∧ (4096 : Int) ≤ off64_t.max_value ∧
    ∃ calls s, in_place_serializer_t.construct ⟨3, 0, 0⟩ 0 4096 = ⟨calls, Except.ok s⟩ ∧
      calls.countP ctor_call.is_create_db = 1 ∧
      s.block_size = 4096 ∧ s.dbsize = 4096 ∧
      s.get_superblock_id off64_t = 0 ∧
      (s.gen_block_id off64_t).map Prod.fst = some 1 :=
  ⟨by decide, by decide,
    construct_over_empty_file off64_t ⟨3, 0, 0⟩ 0 4096 (by decide) (by decide)
      (by decide) rfl (by decide)⟩

/-- C3 (counterexample): with `block_size = 2^63` the construction over an
empty file succeeds and leaves the cursor at `-2^63`, which is not
`block_size`: the assignment `dbsize = block_size` converts a `size_t` to the
signed `off64_t`. -/
theorem construct_over_empty_file_huge_block :
    in_place_serializer_t.construct ⟨3, 0, 0⟩ 0 (2 ^ 63) =
      ⟨[ctor_call.open_file 0, ctor_call.lseek64_end 3, ctor_call.lseek64_set 3,
          ctor_call.create_db 3],
        Except.ok ⟨2 ^ 63, 3, -(2 ^ 63)⟩⟩ ∧
    (-(2 ^ 63) : Int) ≠ 2 ^ 63 := by
  refine ⟨?_, by decide⟩
  rw [construct_empty ⟨3, 0, 0⟩ 0 (2 ^ 63) (by decide) rfl (by decide)]
  rfl

/-! ## C4: reopening an existing file -/

/-- C4: for every `block_size > 0` and `K ≥ 1`, constructing a serializer over
a file whose length is `block_size * K` (an `off64_t` value, as `lseek64`
returns it) never calls `create_db`, and the next `gen_block_id` call returns
exactly `K` (a value of `block_id_t`). -/
theorem construct_over_existing_file (T : int_type) (os : os_results) (db_path : Nat)
    (bs K : Int) (hbs : 0 < bs) (hK : 1 ≤ K)
    (hopen : os.open_ret ≠ -1) (hlen : os.lseek_end_ret = bs * K)
    (hoff : bs * K ≤ off64_t.max_value) (hset : os.lseek_set_ret ≠ -1)
    (hfit : K ≤ T.max_value) :
    ∃ calls s, in_place_serializer_t.construct os db_path bs = ⟨calls, Except.ok s⟩ ∧
      calls.countP ctor_call.is_create_db = 0 ∧
      (s.gen_block_id T).map Prod.fst = some K := by
  have hpos : 0 < bs * K := Int.mul_pos hbs (by omega)
  refine ⟨_, _, construct_existing os db_path bs hopen (by omega) (by omega) hset,
    rfl, ?_⟩
  have hq : bs * K / bs = K := Int.mul_ediv_cancel_left K (ne_of_gt hbs)
  have h := gen_block_id_fst T ⟨bs, os.open_ret, os.lseek_end_ret⟩ hbs
    (by show 0 ≤ os.lseek_end_ret; omega) (by show os.lseek_end_ret ≤ _; omega)
    (by show os.lseek_end_ret / bs ≤ T.max_value; rw [hlen, hq]; exact hfit)
  rw [h]
  show some (os.lseek_end_ret / bs) = some K
  rw [hlen, hq]

/-- Witness of C4: a file of five blocks of 4096 bytes. -/
theorem construct_over_existing_file_witness :
    (0 : Int) < 4096 ∧ (1 : Int) ≤ 5 ∧
    ∃ calls s, in_place_serializer_t.construct ⟨3, 20480, 0⟩ 0 4096 = ⟨calls, Except.ok s⟩ ∧
      calls.countP ctor_call.is_create_db = 0 ∧
      (s.gen_block_id off64_t).map Prod.fst = some 5 :=
  ⟨by decide, by decide,
    construct_over_existing_file off64_t ⟨3, 20480, 0⟩ 0 4096 5 (by decide) (by decide)
      (by decide) (by decide) (by decide) (by decide) (by decide)⟩

/-! ## C5: the cursor after `k` allocations on a fresh file -/

/-- C5 (amended): starting from a serializer freshly constructed over an empty
file with `block_size > 0`, after the `k`-th successive `gen_block_id` call the
cursor `dbsize` equals `block_size * (1 + k)`, as long as that value does not
overflow `off64_t` (`block_size * (1 + k) ≤ 2^63 - 1`). -/
theorem cursor_after_calls_on_fresh_file (T : int_type) (os : os_results) (db_path : Nat)
    (bs : Int) (k : Nat) (hbs : 0 < bs)
    (hopen : os.open_ret ≠ -1) (hlen : os.lseek_end_ret = 0) (hset : os.lseek_set_ret ≠ -1)
    (hov : bs * (1 + k) ≤ off64_t.max_value) :
    ∃ calls s, in_place_serializer_t.construct os db_path bs = ⟨calls, Except.ok s⟩ ∧
      ∃ ids sk, s.gen_block_ids T k = some (ids, sk) ∧ ids.length = k ∧
        sk.dbsize = bs * (1 + k) := by
  have hk : 0 ≤ bs * k := Int.mul_nonneg (le_of_lt hbs) (Int.ofNat_nonneg k)
  have hexp : bs * (1 + k) = bs + k * bs := by ring
  have hbmax : bs ≤ off64_t.max_value := by
    have : bs * k = k * bs := by ring
    omega
  refine ⟨_, _, construct_empty os db_path bs hopen hlen hset, ?_⟩
  rw [off64_t_convert_of_nonneg bs (le_of_lt hbs) hbmax]
  refine ⟨_, _, gen_block_ids_in_range T k ⟨bs, os.open_ret, bs⟩ hbs (le_of_lt hbs)
    (by show bs + k * bs ≤ off64_t.max_value; omega), by simp, ?_⟩
  show bs + k * bs = bs * (1 + k)
  omega

/-- Witness of C5 (amended): two calls on a fresh file of 4096-byte blocks. -/
theorem cursor_after_calls_on_fresh_file_witness :
    (0 : Int) < 4096 ∧
    ∃ calls s, in_place_serializer_t.construct ⟨3, 0, 0⟩ 0 4096 = ⟨calls, Except.ok s⟩ ∧
      ∃ ids sk, s.gen_block_ids off64_t 2 = some (ids, sk) ∧ ids.length = 2 ∧
        sk.dbsize = 4096 * (1 + (2 : Nat)) :=
  ⟨by decide,
    cursor_after_calls_on_fresh_file off64_t ⟨3, 0, 0⟩ 0 4096 2 (by decide)
      (by decide) rfl (by decide) (by decide)⟩

/-- C5 (counterexample): on a fresh file of 4096-byte blocks the cursor after
the first call (`k = 1`) is `8192 = 4096 * (1 + 1)`, not `4096 * (2 + 1)`; and
with `block_size = 2^62` the cursor after the first call is `-2^63`, not
`2^62 * (1 + 1)`, because it overflows `off64_t`. -/
theorem cursor_after_first_call_on_fresh_file :
    (in_place_serializer_t.construct ⟨3, 0, 0⟩ 0 4096).outcome = Except.ok ⟨4096, 3, 4096⟩ ∧
    in_place_serializer_t.gen_block_ids off64_t 1 ⟨4096, 3, 4096⟩
      = some ([1], ⟨4096, 3, 8192⟩) ∧
    (8192 : Int) ≠ 4096 * (2 + 1) ∧
    (in_place_serializer_t.construct ⟨3, 0, 0⟩ 0 (2 ^ 62)).outcome
      = Except.ok ⟨2 ^ 62, 3, 2 ^ 62⟩ ∧
    in_place_serializer_t.gen_block_ids off64_t 1 ⟨2 ^ 62, 3, 2 ^ 62⟩
      = some ([1], ⟨2 ^ 62, 3, -(2 ^ 63)⟩) ∧
    (-(2 ^ 63) : Int) ≠ 2 ^ 62 * (1 + 1) := by
  refine ⟨rfl, rfl, by decide, rfl, rfl, by decide⟩

/-! ## C6: the scenario with blocks of 4096 bytes -/

/-- C6: with `block_size = 4096`, construction over an empty file leaves the
cursor at 4096 and the superblock identifier is 0; the first `gen_block_id`
returns 1 and leaves the cursor at 8192; the second returns 2 and leaves it at
12288; and `id_to_offset 2 = 8192`.  This holds for every descriptor `open`
returns and every `block_id_t`. -/
theorem scenario_4096 (T : int_type) (os : os_results) (db_path : Nat)
    (hopen : os.open_ret ≠ -1) (hlen : os.lseek_end_ret = 0) (hset : os.lseek_set_ret ≠ -1) :
    ∃ calls s0 s1 s2,
      in_place_serializer_t.construct os db_path 4096 = ⟨calls, Except.ok s0⟩ ∧
      s0.dbsize = 4096 ∧ s0.get_superblock_id T = 0 ∧
      s0.gen_block_id T = some (1, s1) ∧ s1.dbsize = 8192 ∧
      s1.gen_block_id T = some (2, s2) ∧ s2.dbsize = 12288 ∧
      s2.id_to_offset 2 = 8192 := by
  have hT := int_type.small_range T
  have c1 : T.convert 1 = 1 := int_type.convert_of_range T 1 (by omega) (by omega)
  have c2 : T.convert 2 = 2 := int_type.convert_of_range T 2 (by omega) (by omega)
  refine ⟨_, ⟨4096, os.open_ret, 4096⟩, ⟨4096, os.open_ret, 8192⟩, ⟨4096, os.open_ret, 12288⟩,
    construct_empty os db_path 4096 hopen hlen hset, rfl, get_superblock_id_eq_zero T _,
    ?_, rfl, ?_, rfl, ?_⟩
  · rw [gen_block_id_in_range T _ (show (0 : Int) < 4096 by decide)
      (show (0 : Int) ≤ 4096 by decide) (show (4096 : Int) + 4096 ≤ off64_t.max_value by decide)]
    show some (T.convert (4096 / 4096), _) = _
    rw [show (4096 : Int) / 4096 = 1 by decide, c1]
    rfl
  · rw [gen_block_id_in_range T _ (show (0 : Int) < 4096 by decide)
      (show (0 : Int) ≤ 8192 by decide) (show (8192 : Int) + 4096 ≤ off64_t.max_value by decide)]
    show some (T.convert (8192 / 4096), _) = _
    rw [show (8192 : Int) / 4096 = 2 by decide, c2]
    rfl
  · show off64_t.convert (size_t.convert (size_t.convert 2 * 4096)) = 8192
    decide

/-- Witness of C6: descriptor 3 and a 64-bit signed `block_id_t`. -/
theorem scenario_4096_witness :
    ∃ calls s0 s1 s2,
      in_place_serializer_t.construct ⟨3, 0, 0⟩ 0 4096 = ⟨calls, Except.ok s0⟩ ∧
      s0.dbsize = 4096 ∧ s0.get_superblock_id off64_t = 0 ∧
      s0.gen_block_id off64_t = some (1, s1) ∧ s1.dbsize = 8192 ∧
      s1.gen_block_id off64_t = some (2, s2) ∧ s2.dbsize = 12288 ∧
      s2.id_to_offset 2 = 8192 :=
  scenario_4096 off64_t ⟨3, 0, 0⟩ 0 (by decide) rfl (by decide)

/-! ## C7: the null identifier -/

/-- The sentinel is -1 when `block_id_t` is signed and the greatest value of
`block_id_t` when it is unsigned. -/
theorem null_block_id_value (T : int_type) :
    in_place_serializer_t.null_block_id T = (if T.is_signed then -1 else T.max_value) := by
  obtain ⟨w, sg⟩ := T
  cases w <;> cases sg <;> decide

/-- The sentinel has all bits set: it is congruent to `2 ^ bits - 1`. -/
theorem null_block_id_all_bits_set (T : int_type) :
    in_place_serializer_t.null_block_id T % T.modulus = T.modulus - 1 := by
  obtain ⟨w, sg⟩ := T
  cases w <;> cases sg <;> decide

/-- An identifier from 0 up to, but not including, the greatest value of
`block_id_t` is not the sentinel. -/
theorem not_null_of_range (T : int_type) (id : Int) (h0 : 0 ≤ id) (h1 : id < T.max_value) :
    in_place_serializer_t.is_block_id_null T id = false := by
  unfold in_place_serializer_t.is_block_id_null
  rw [null_block_id_value]
  split
  · exact beq_false_of_ne (by omega)
  · exact beq_false_of_ne (by omega)

/-- C7 (amended): `is_block_id_null b` is true iff `b` is the sentinel
`null_block_id` (the conversion of -1 to `block_id_t`, all bits set), in
particular on the sentinel itself; and on a serializer with `block_size > 0`
and a non-negative cursor, as long as the cursor does not overflow `off64_t`
over the `n` calls and the identifiers stay below the greatest value of
`block_id_t`, `is_block_id_null` is false for every identifier the calls
return. -/
theorem is_block_id_null_spec (T : int_type) (n : Nat) (s : in_place_serializer_t)
    (hbs : 0 < s.block_size) (hd : 0 ≤ s.dbsize)
    (hov : s.dbsize + n * s.block_size ≤ off64_t.max_value)
    (hfit : s.dbsize / s.block_size + n ≤ T.max_value) :
    (∀ b, in_place_serializer_t.is_block_id_null T b = true ↔
      b = in_place_serializer_t.null_block_id T) ∧
    in_place_serializer_t.null_block_id T = T.convert (-1) ∧
    in_place_serializer_t.null_block_id T % T.modulus = T.modulus - 1 ∧
    in_place_serializer_t.is_block_id_null T (in_place_serializer_t.null_block_id T) = true ∧
    ∃ ids s1, s.gen_block_ids T n = some (ids, s1) ∧ ids.length = n ∧
      ∀ id ∈ ids, in_place_serializer_t.is_block_id_null T id = false := by
  refine ⟨fun b => by simp [in_place_serializer_t.is_block_id_null], rfl,
    null_block_id_all_bits_set T, by simp [in_place_serializer_t.is_block_id_null], ?_⟩
  have hq0 : 0 ≤ s.dbsize / s.block_size := Int.ediv_nonneg hd (le_of_lt hbs)
  refine ⟨_, _, gen_block_ids_fit T n s hbs hd hov (by omega), by simp, ?_⟩
  intro id hid
  obtain ⟨j, hj, rfl⟩ := List.mem_map.mp hid
  have hjn : j < n := List.mem_range.mp hj
  exact not_null_of_range T _ (by omega) (by omega)

/-- Witness of C7 (amended): three calls on a fresh file of 4096-byte blocks. -/
theorem is_block_id_null_spec_witness :
    (0 : Int) < 4096 ∧
    (∀ b, in_place_serializer_t.is_block_id_null off64_t b = true ↔
      b = in_place_serializer_t.null_block_id off64_t) ∧
    in_place_serializer_t.null_block_id off64_t = off64_t.convert (-1) ∧
    in_place_serializer_t.null_block_id off64_t % off64_t.modulus = off64_t.modulus - 1 ∧
    in_place_serializer_t.is_block_id_null off64_t
      (in_place_serializer_t.null_block_id off64_t) = true ∧
    ∃ ids s1, in_place_serializer_t.gen_block_ids off64_t 3 ⟨4096, 3, 4096⟩ = some (ids, s1) ∧
      ids.length = 3 ∧
      ∀ id ∈ ids, in_place_serializer_t.is_block_id_null off64_t id = false :=
  ⟨by decide,
    is_block_id_null_spec off64_t 3 ⟨4096, 3, 4096⟩
      (by decide) (by decide) (by decide) (by decide)⟩

/-- C7 (counterexample): over a file of `2^63 - 1` one-byte blocks the
construction succeeds without bootstrap; `2^63` calls of `gen_block_id` later
the cursor has wrapped to -1, and the next call returns the sentinel
`null_block_id`, whatever `block_id_t` is. -/
theorem gen_block_id_returns_null :
    in_place_serializer_t.construct ⟨3, 2 ^ 63 - 1, 0⟩ 0 1 =
      ⟨[ctor_call.open_file 0, ctor_call.lseek64_end 3, ctor_call.lseek64_set 3],
        Except.ok ⟨1, 3, 2 ^ 63 - 1⟩⟩ ∧
    (fun T => (in_place_serializer_t.gen_block_ids T (2 ^ 63) ⟨1, 3, 2 ^ 63 - 1⟩).map
        Prod.snd) = (fun _ => some ⟨1, 3, -1⟩) ∧
    (fun T => (in_place_serializer_t.gen_block_id T ⟨1, 3, -1⟩).map
        (fun r => in_place_serializer_t.is_block_id_null T r.1)) = (fun _ => some true) := by
  refine ⟨?_, ?_, ?_⟩
  · rw [construct_existing ⟨3, 2 ^ 63 - 1, 0⟩ 0 1 (by decide) (by decide) (by decide)
      (by decide)]
  · funext T
    rw [gen_block_ids_wrap T (2 ^ 63) ⟨1, 3, 2 ^ 63 - 1⟩ (by decide) (by decide)]
    simp only [Option.map_some']
    have h : off64_t.convert ((2 ^ 63 - 1 : Int) + ((2 ^ 63 : Nat) : Int) * 1) = -1 := by
      rw [off64_t_convert_eq]
      norm_num
    exact congrArg some (congrArg (in_place_serializer_t.mk 1 3) h)
  · funext T
    rw [gen_block_id_wrap T ⟨1, 3, -1⟩ (by decide)]
    simp only [Option.map_some']
    have h : off64_t.convert (size_t.convert (-1) / 1) = -1 := by decide
    show some (in_place_serializer_t.is_block_id_null T
      (T.convert (off64_t.convert (size_t.convert (-1) / 1)))) = some true
    rw [h]
    simp [in_place_serializer_t.is_block_id_null, in_place_serializer_t.null_block_id]

/-! ## C8 and C9: the cursor counts blocks; block 0 is never handed out -/

/-- Construction over an empty file (`K = 1`) or over a file of `K ≥ 1` blocks
leaves the cursor at `block_size * K`, when that is an `off64_t` value. -/
theorem construct_blocks (os : os_results) (db_path : Nat) (bs K : Int)
    (hbs : 0 < bs) (hK : 1 ≤ K)
    (hopen : os.open_ret ≠ -1)
    (hlen : (os.lseek_end_ret = 0 ∧ K = 1) ∨ os.lseek_end_ret = bs * K)
    (hset : os.lseek_set_ret ≠ -1)
    (hoff : bs * K ≤ off64_t.max_value) :
    ∃ calls, in_place_serializer_t.construct os db_path bs =
      ⟨calls, Except.ok ⟨bs, os.open_ret, bs * K⟩⟩ := by
  have hpos : 0 < bs * K := Int.mul_pos hbs (by omega)
  rcases hlen with ⟨h0, h1⟩ | h
  · subst h1
    rw [mul_one] at hoff
    refine ⟨[ctor_call.open_file db_path, ctor_call.lseek64_end os.open_ret,
      ctor_call.lseek64_set os.open_ret, ctor_call.create_db os.open_ret], ?_⟩
    rw [construct_empty os db_path bs hopen h0 hset, mul_one,
      off64_t_convert_of_nonneg bs (le_of_lt hbs) hoff]
  · refine ⟨[ctor_call.open_file db_path, ctor_call.lseek64_end os.open_ret,
      ctor_call.lseek64_set os.open_ret], ?_⟩
    rw [construct_existing os db_path bs hopen (by omega) (by omega) hset, h]

/-- C8 (amended): for every serializer constructed with `block_size > 0` over
an empty file (`K = 1`) or over a file of length `block_size * K` with
`K ≥ 1`, after any number `n` of `gen_block_id` calls such that
`block_size * (K + n)` does not overflow `off64_t`, the cursor `dbsize` equals
`block_size * (K + n)` and is an exact multiple of `block_size`. -/
theorem cursor_counts_blocks (T : int_type) (os : os_results) (db_path : Nat) (bs K : Int)
    (n : Nat) (hbs : 0 < bs) (hK : 1 ≤ K)
    (hopen : os.open_ret ≠ -1)
    (hlen : (os.lseek_end_ret = 0 ∧ K = 1) ∨ os.lseek_end_ret = bs * K)
    (hset : os.lseek_set_ret ≠ -1)
    (hov : bs * (K + n) ≤ off64_t.max_value) :
    ∃ calls s, in_place_serializer_t.construct os db_path bs = ⟨calls, Except.ok s⟩ ∧
      ∃ ids sn, s.gen_block_ids T n = some (ids, sn) ∧ ids.length = n ∧
        sn.dbsize = bs * (K + n) ∧ sn.dbsize % bs = 0 := by
  have hn : 0 ≤ bs * n := Int.mul_nonneg (le_of_lt hbs) (Int.ofNat_nonneg n)
  have hexp : bs * (K + n) = bs * K + n * bs := by ring
  have hcomm : bs * n = n * bs := by ring
  have hpos : 0 < bs * K := Int.mul_pos hbs (by omega)
  obtain ⟨calls, hc⟩ := construct_blocks os db_path bs K hbs hK hopen hlen hset (by omega)
  refine ⟨calls, _, hc, _, _, gen_block_ids_in_range T n ⟨bs, os.open_ret, bs * K⟩ hbs
    (by show 0 ≤ bs * K; omega) (by show bs * K + n * bs ≤ off64_t.max_value; omega),
    by simp, ?_, ?_⟩
  · show bs * K + n * bs = bs * (K + n)
    omega
  · show (bs * K + n * bs) % bs = 0
    rw [← hexp]
    exact Int.mul_emod_right bs (K + n)

/-- Witness of C8 (amended): three calls after reopening a file of five
4096-byte blocks. -/
theorem cursor_counts_blocks_witness :
    (0 : Int) < 4096 ∧ (1 : Int) ≤ 5 ∧
    ∃ calls s, in_place_serializer_t.construct ⟨3, 20480, 0⟩ 0 4096 = ⟨calls, Except.ok s⟩ ∧
      ∃ ids sn, s.gen_block_ids off64_t 3 = some (ids, sn) ∧ ids.length = 3 ∧
        sn.dbsize = 4096 * (5 + (3 : Nat)) ∧ sn.dbsize % 4096 = 0 :=
  ⟨by decide, by decide,
    cursor_counts_blocks off64_t ⟨3, 20480, 0⟩ 0 4096 5 3 (by decide) (by decide)
      (by decide) (Or.inr (by decide)) (by decide) (by decide)⟩

/-- C8 (counterexample): with `block_size = 3 * 2^61` a serializer constructed
over an empty file has, after two `gen_block_id` calls, the cursor `2^61`,
which is neither `block_size * (1 + 2)` nor a multiple of `block_size`. -/
theorem cursor_wraps_around :
    (in_place_serializer_t.construct ⟨3, 0, 0⟩ 0 (3 * 2 ^ 61)).outcome
      = Except.ok ⟨3 * 2 ^ 61, 3, 3 * 2 ^ 61⟩ ∧
    (in_place_serializer_t.gen_block_ids off64_t 2 ⟨3 * 2 ^ 61, 3, 3 * 2 ^ 61⟩).map Prod.snd
      = some ⟨3 * 2 ^ 61, 3, 2 ^ 61⟩ ∧
    (2 ^ 61 : Int) ≠ 3 * 2 ^ 61 * (1 + 2) ∧
    (2 ^ 61 : Int) % (3 * 2 ^ 61) ≠ 0 := by
  refine ⟨rfl, rfl, by decide, by decide⟩

/-- C9 (amended): `get_superblock_id` is 0 in every state; and for every
serializer constructed with `block_size > 0` over an empty file (`K = 1`) or
over a file of length `block_size * K` with `K ≥ 1`, as long as the cursor
does not overflow `off64_t` over the `n` calls and the identifiers fit
`block_id_t`, no `gen_block_id` call returns the superblock identifier. -/
theorem superblock_never_allocated (T : int_type) (os : os_results) (db_path : Nat) (bs K : Int)
    (n : Nat) (hbs : 0 < bs) (hK : 1 ≤ K)
    (hopen : os.open_ret ≠ -1)
    (hlen : (os.lseek_end_ret = 0 ∧ K = 1) ∨ os.lseek_end_ret = bs * K)
    (hset : os.lseek_set_ret ≠ -1)
    (hov : bs * (K + n) ≤ off64_t.max_value)
    (hfit : K + n ≤ T.max_value + 1) :
    (∀ st : in_place_serializer_t, st.get_superblock_id T = 0) ∧
    ∃ calls s, in_place_serializer_t.construct os db_path bs = ⟨calls, Except.ok s⟩ ∧
      ∃ ids sn, s.gen_block_ids T n = some (ids, sn) ∧ ids.length = n ∧
        ∀ id ∈ ids, ∀ st : in_place_serializer_t, id ≠ st.get_superblock_id T := by
  refine ⟨get_superblock_id_eq_zero T, ?_⟩
  have hn : 0 ≤ bs * n := Int.mul_nonneg (le_of_lt hbs) (Int.ofNat_nonneg n)
  have hexp : bs * (K + n) = bs * K + n * bs := by ring
  have hcomm : bs * n = n * bs := by ring
  have hpos : 0 < bs * K := Int.mul_pos hbs (by omega)
  have hq : bs * K / bs = K := Int.mul_ediv_cancel_left K (ne_of_gt hbs)
  obtain ⟨calls, hc⟩ := construct_blocks os db_path bs K hbs hK hopen hlen hset (by omega)
  refine ⟨calls, _, hc, _, _, gen_block_ids_fit T n ⟨bs, os.open_ret, bs * K⟩ hbs
    (by show 0 ≤ bs * K; omega) (by show bs * K + n * bs ≤ off64_t.max_value; omega)
    (by show bs * K / bs + n ≤ T.max_value + 1; rw [hq]; exact hfit),
    by simp, ?_⟩
  intro id hid st
  rw [get_superblock_id_eq_zero]
  obtain ⟨j, _, rfl⟩ := List.mem_map.mp hid
  show bs * K / bs + (j : Int) ≠ 0
  rw [hq]
  omega

/-- Witness of C9 (amended): three calls on a fresh file of 4096-byte blocks. -/
theorem superblock_never_allocated_witness :
    (0 : Int) < 4096 ∧ (1 : Int) ≤ 1 ∧
    (∀ st : in_place_serializer_t, st.get_superblock_id off64_t = 0) ∧
    ∃ calls s, in_place_serializer_t.construct ⟨3, 0, 0⟩ 0 4096 = ⟨calls, Except.ok s⟩ ∧
      ∃ ids sn, s.gen_block_ids off64_t 3 = some (ids, sn) ∧ ids.length = 3 ∧
        ∀ id ∈ ids, ∀ st : in_place_serializer_t, id ≠ st.get_superblock_id off64_t :=
  ⟨by decide, by decide,
    superblock_never_allocated off64_t ⟨3, 0, 0⟩ 0 4096 1 3 (by decide) (by decide)
      (by decide) (Or.inl ⟨rfl, rfl⟩) (by decide) (by decide) (by decide)⟩

/-- C9 (counterexample): with `block_size = 2^62` a serializer constructed over
an empty file returns on its fourth `gen_block_id` call the identifier 0, the
superblock identifier, whatever `block_id_t` is. -/
theorem superblock_allocated_after_wrap :
    (in_place_serializer_t.construct ⟨3, 0, 0⟩ 0 (2 ^ 62)).outcome
      = Except.ok ⟨2 ^ 62, 3, 2 ^ 62⟩ ∧
    (fun T => (in_place_serializer_t.gen_block_ids T 3 ⟨2 ^ 62, 3, 2 ^ 62⟩).map Prod.snd)
      = (fun _ => some ⟨2 ^ 62, 3, 0⟩) ∧
    (fun T => (in_place_serializer_t.gen_block_id T ⟨2 ^ 62, 3, 0⟩).map Prod.fst)
      = (fun T => some (in_place_serializer_t.get_superblock_id T ⟨2 ^ 62, 3, 0⟩)) := by
  refine ⟨rfl, ?_, ?_⟩
  · funext T
    obtain ⟨w, sg⟩ := T
    cases w <;> cases sg <;> rfl
  · funext T
    obtain ⟨w, sg⟩ := T
    cases w <;> cases sg <;> rfl

/-! ## C10: requests handed to the I/O engine -/

/-- Invariant of the loop of `do_write`: run from index `i` on an array of
`num_writes` entries, it leaves the entries below `i` as they are and sets every
entry `k ≥ i` from `writes[k]`. -/
theorem do_write_loop_spec (s : in_place_serializer_t) (writes : Nat → write) (n : Int) :
    ∀ (m i : Nat) (l : List aio_write_t), n.toNat - i = m → l.length = n.toNat →
      (s.do_write_loop writes n i l.toArray).toList.length = n.toNat ∧
      ∀ k, k < n.toNat →
        (s.do_write_loop writes n i l.toArray).toList[k]? =
          if i ≤ k then
            some { resource := s.dbfd
                   offset := s.id_to_offset (writes k).block_id
                   length := s.block_size
                   buf := (writes k).buf
                   callback := (writes k).callback }
          else l[k]? := by
  intro m
  induction m with
  | zero =>
    intro i l hm hl
    rw [in_place_serializer_t.do_write_loop, if_neg (by omega)]
    refine ⟨by simpa using hl, ?_⟩
    intro k hk
    rw [if_neg (by omega)]
  | succ m ih =>
    intro i l hm hl
    rw [in_place_serializer_t.do_write_loop, if_pos (by omega)]
    simp only [List.setD_toArray]
    obtain ⟨h1, h2⟩ := ih (i + 1) (l.set i _) (by omega) (by simpa using hl)
    refine ⟨h1, ?_⟩
    intro k hk
    rw [h2 k hk]
    by_cases hik : i + 1 ≤ k
    · rw [if_pos hik, if_pos (by omega)]
    · rw [if_neg hik]
      by_cases hki : i ≤ k
      · have : k = i := by omega
        subst this
        rw [if_pos hki, List.getElem?_set_self (by omega)]
      · rw [if_neg hki, List.getElem?_set_ne (by omega)]

/-- C10: `do_read` submits exactly one read, on `dbfd`, at offset
`id_to_offset block_id`, of length `block_size`, into `buf`, with `callback`;
and for every batch of `num_writes ≥ 0` write requests `do_write` makes exactly
one `schedule_aio_write` submission, of exactly `num_writes` entries in input
order, entry `i` having resource `dbfd`, offset
`id_to_offset writes[i].block_id`, length `block_size`, and the `buf` and
`callback` of `writes[i]`. -/
theorem io_requests_whole_block (s : in_place_serializer_t) (queue : Nat)
    (block_id : Int) (buf callback : Nat) (writes : Nat → write) (num_writes : Int)
    (hn : 0 ≤ num_writes) :
    s.do_read queue block_id buf callback =
      [iosys_call.schedule_aio_read s.dbfd (s.id_to_offset block_id) s.block_size buf queue
        callback] ∧
    ∃ batch, s.do_write queue writes num_writes =
        some [iosys_call.schedule_aio_write batch num_writes queue] ∧
      (batch.length : Int) = num_writes ∧
      ∀ i : Nat, (i : Int) < num_writes →
        batch[i]? = some { resource := s.dbfd
                           offset := s.id_to_offset (writes i).block_id
                           length := s.block_size
                           buf := (writes i).buf
                           callback := (writes i).callback } := by
  refine ⟨rfl, ?_⟩
  obtain ⟨h1, h2⟩ := do_write_loop_spec s writes num_writes num_writes.toNat 0
    (List.replicate num_writes.toNat default) (by omega) (by simp)
  refine ⟨(s.do_write_loop writes num_writes 0
    (List.replicate num_writes.toNat default).toArray).toList, ?_, ?_, ?_⟩
  · rfl
  · rw [h1]
    omega
  · intro i hi
    rw [h2 i (by omega), if_pos (Nat.zero_le i)]

/-- Witness of C10: a batch of two writes on a file of 4096-byte blocks. -/
theorem io_requests_whole_block_witness :
    (0 : Int) ≤ 2 ∧
    in_place_serializer_t.do_read ⟨4096, 3, 12288⟩ 7 2 50 60 =
      [iosys_call.schedule_aio_read 3 (in_place_serializer_t.id_to_offset ⟨4096, 3, 12288⟩ 2)
        4096 50 7 60] ∧
    ∃ batch, in_place_serializer_t.do_write ⟨4096, 3, 12288⟩ 7
        (fun i => ⟨(i : Int) + 1, 100 + i, 200 + i⟩) 2 =
        some [iosys_call.schedule_aio_write batch 2 7] ∧
      (batch.length : Int) = 2 ∧
      ∀ i : Nat, (i : Int) < 2 →
        batch[i]? = some { resource := 3
                           offset := in_place_serializer_t.id_to_offset ⟨4096, 3, 12288⟩
                             ((i : Int) + 1)
                           length := 4096
                           buf := 100 + i
                           callback := 200 + i } :=
  ⟨by decide,
    io_requests_whole_block ⟨4096, 3, 12288⟩ 7 2 50 60
      (fun i => ⟨(i : Int) + 1, 100 + i, 200 + i⟩) 2 (by decide)⟩

/-! ## C11: construction fails exactly when a system call fails -/

/-- Construction when `open` fails: only `open` is called. -/
theorem construct_open_fails (os : os_results) (db_path : Nat) (bs : Int)
    (hopen : os.open_ret = -1) :
    in_place_serializer_t.construct os db_path bs =
      ⟨[ctor_call.open_file db_path], Except.error "Could not open database file"⟩ := by
  simp [in_place_serializer_t.construct, check, hopen]

/-- Construction when the seek to the end fails. -/
theorem construct_seek_end_fails (os : os_results) (db_path : Nat) (bs : Int)
    (hopen : os.open_ret ≠ -1) (hlen : os.lseek_end_ret = -1) :
    in_place_serializer_t.construct os db_path bs =
      ⟨[ctor_call.open_file db_path, ctor_call.lseek64_end os.open_ret],
        Except.error "Could not determine database file size"⟩ := by
  simp [in_place_serializer_t.construct, check, hopen, hlen]

/-- Construction when the seek back to the start fails. -/
theorem construct_seek_set_fails (os : os_results) (db_path : Nat) (bs : Int)
    (hopen : os.open_ret ≠ -1) (hlen : os.lseek_end_ret ≠ -1) (hset : os.lseek_set_ret = -1) :
    in_place_serializer_t.construct os db_path bs =
      ⟨[ctor_call.open_file db_path, ctor_call.lseek64_end os.open_ret,
          ctor_call.lseek64_set os.open_ret],
        Except.error "Could not reset database file position"⟩ := by
  simp [in_place_serializer_t.construct, check, hopen, hlen, hset]

/-- C11 (amended): for every block size, construction yields no serializer if
and only if `open` returns -1, or the seek to the end returns -1, or the seek
back to the start returns -1; a failed `open` is followed by no seek; a failed
construction never calls `create_db`; and in every other case the serializer
is produced with its three members set, `dbsize` being the length found when
that is not 0 and, when it is 0, `block_size` converted to `off64_t`, which is
`block_size` for `0 ≤ block_size ≤ 2^63 - 1`. -/
theorem construct_all_or_nothing (os : os_results) (db_path : Nat) (bs : Int) :
    ((∃ e, (in_place_serializer_t.construct os db_path bs).outcome = Except.error e) ↔
      (os.open_ret = -1 ∨ os.lseek_end_ret = -1 ∨ os.lseek_set_ret = -1)) ∧
    (os.open_ret = -1 →
      (in_place_serializer_t.construct os db_path bs).calls = [ctor_call.open_file db_path]) ∧
    ((∃ e, (in_place_serializer_t.construct os db_path bs).outcome = Except.error e) →
      (in_place_serializer_t.construct os db_path bs).calls.countP ctor_call.is_create_db = 0) ∧
    (¬ (os.open_ret = -1 ∨ os.lseek_end_ret = -1 ∨ os.lseek_set_ret = -1) →
      (in_place_serializer_t.construct os db_path bs).outcome =
        Except.ok ⟨bs, os.open_ret,
          if os.lseek_end_ret = 0 then off64_t.convert bs else os.lseek_end_ret⟩) ∧
    (0 ≤ bs → bs ≤ off64_t.max_value →
      ¬ (os.open_ret = -1 ∨ os.lseek_end_ret = -1 ∨ os.lseek_set_ret = -1) →
      (in_place_serializer_t.construct os db_path bs).outcome =
        Except.ok ⟨bs, os.open_ret,
          if os.lseek_end_ret = 0 then bs else os.lseek_end_ret⟩) := by
  by_cases h1 : os.open_ret = -1
  · rw [construct_open_fails os db_path bs h1]
    simp [h1, ctor_call.is_create_db]
  by_cases h2 : os.lseek_end_ret = -1
  · rw [construct_seek_end_fails os db_path bs h1 h2]
    simp [h1, h2, ctor_call.is_create_db]
  by_cases h3 : os.lseek_set_ret = -1
  · rw [construct_seek_set_fails os db_path bs h1 h2 h3]
    simp [h1, h2, h3, ctor_call.is_create_db]
  by_cases h0 : os.lseek_end_ret = 0
  · rw [construct_empty os db_path bs h1 h0 h3]
    refine ⟨by simp [h1, h2, h3], by simp [h1], by simp, by simp [h0], ?_⟩
    intro hbs0 hbs1 _
    rw [off64_t_convert_of_nonneg bs hbs0 hbs1]
    simp [h0]
  · rw [construct_existing os db_path bs h1 h0 h2 h3]
    simp [h1, h2, h3, h0]

/-- Witness of C11 (amended): an empty file, descriptor 3, blocks of 4096 bytes. -/
theorem construct_all_or_nothing_witness :
    ((∃ e, (in_place_serializer_t.construct ⟨3, 0, 0⟩ 0 4096).outcome = Except.error e) ↔
      ((3 : Int) = -1 ∨ (0 : Int) = -1 ∨ (0 : Int) = -1)) ∧
    ((3 : Int) = -1 →
      (in_place_serializer_t.construct ⟨3, 0, 0⟩ 0 4096).calls = [ctor_call.open_file 0]) ∧
    ((∃ e, (in_place_serializer_t.construct ⟨3, 0, 0⟩ 0 4096).outcome = Except.error e) →
      (in_place_serializer_t.construct ⟨3, 0, 0⟩ 0 4096).calls.countP
        ctor_call.is_create_db = 0) ∧
    (¬ ((3 : Int) = -1 ∨ (0 : Int) = -1 ∨ (0 : Int) = -1) →
      (in_place_serializer_t.construct ⟨3, 0, 0⟩ 0 4096).outcome =
        Except.ok ⟨4096, 3, if (0 : Int) = 0 then off64_t.convert 4096 else 0⟩) ∧
    ((0 : Int) ≤ 4096 → (4096 : Int) ≤ off64_t.max_value →
      ¬ ((3 : Int) = -1 ∨ (0 : Int) = -1 ∨ (0 : Int) = -1) →
      (in_place_serializer_t.construct ⟨3, 0, 0⟩ 0 4096).outcome =
        Except.ok ⟨4096, 3, if (0 : Int) = 0 then 4096 else 0⟩) :=
  construct_all_or_nothing ⟨3, 0, 0⟩ 0 4096

/-- C11 (counterexample): with `block_size = 2^64 - 1` every system call
succeeds over an empty file and a serializer is produced, but its `dbsize` is
-1, not `block_size`. -/
theorem construct_cursor_not_block_size :
    in_place_serializer_t.construct ⟨3, 0, 0⟩ 0 (2 ^ 64 - 1) =
      ⟨[ctor_call.open_file 0, ctor_call.lseek64_end 3, ctor_call.lseek64_set 3,
          ctor_call.create_db 3],
        Except.ok ⟨2 ^ 64 - 1, 3, -1⟩⟩ ∧
    (-1 : Int) ≠ 2 ^ 64 - 1 := by
  refine ⟨?_, by decide⟩
  rw [construct_empty ⟨3, 0, 0⟩ 0 (2 ^ 64 - 1) (by decide) rfl (by decide)]
  rfl

/-! ## What `do_write` submits -/

/-- What `do_write` returns for a batch of `num_writes ≥ 0` requests: one
submission of `num_writes` entries, entry `i` made from `writes[i]`. -/
theorem do_write_eq (s : in_place_serializer_t) (queue : Nat) (writes : Nat → write)
    (num_writes : Int) (hn : 0 ≤ num_writes) :
    ∃ batch, s.do_write queue writes num_writes =
        some [iosys_call.schedule_aio_write batch num_writes queue] ∧
      (batch.length : Int) = num_writes ∧
      ∀ i : Nat, (i : Int) < num_writes →
        batch[i]? = some { resource := s.dbfd
                           offset := s.id_to_offset (writes i).block_id
                           length := s.block_size
                           buf := (writes i).buf
                           callback := (writes i).callback } := by
  obtain ⟨h1, h2⟩ := do_write_loop_spec s writes num_writes num_writes.toNat 0
    (List.replicate num_writes.toNat default) (by omega) (by simp)
  refine ⟨(s.do_write_loop writes num_writes 0
    (List.replicate num_writes.toNat default).toArray).toList, ?_, ?_, ?_⟩
  · rfl
  · rw [h1]
    omega
  · intro i hi
    rw [h2 i (by omega), if_pos (Nat.zero_le i)]

/-! ## C12: only allocation moves the cursor -/

/-- C12 (amended): on the explicit state (`block_size`, `dbfd`, `dbsize`),
`gen_block_id` with `block_size > 0` leaves `block_size` and `dbfd` unchanged
and moves `dbsize` by `+block_size` modulo `2^64`, which is exactly
`+block_size` (and a change) when the cursor is non-negative and
`dbsize + block_size ≤ 2^63 - 1`; `id_to_offset`, `do_read`, `do_write`,
`is_block_id_null` and `get_superblock_id` return what the member function
computes and leave the three fields unchanged, in every state and for every
argument. -/
theorem cursor_moved_only_by_allocation (T : int_type) (s : in_place_serializer_t)
    (hbs : 0 < s.block_size) (hd : 0 ≤ s.dbsize)
    (hov : s.dbsize + s.block_size ≤ off64_t.max_value) :
    (∃ id s1, s.invoke T member_call.gen_block_id = some (member_result.block_id id, s1) ∧
      s1.dbsize = s.dbsize + s.block_size ∧ s1.dbsize ≠ s.dbsize ∧
      s1.block_size = s.block_size ∧ s1.dbfd = s.dbfd) ∧
    (∀ st : in_place_serializer_t, st.block_size ≠ 0 →
      ∃ id s1, st.invoke T member_call.gen_block_id = some (member_result.block_id id, s1) ∧
        s1.dbsize = off64_t.convert (st.dbsize + st.block_size) ∧
        s1.block_size = st.block_size ∧ s1.dbfd = st.dbfd) ∧
    (∀ st : in_place_serializer_t,
      (∀ id, st.invoke T (member_call.id_to_offset id) =
        some (member_result.offset (st.id_to_offset id), st)) ∧
      (∀ queue block_id buf callback,
        st.invoke T (member_call.do_read queue block_id buf callback) =
          some (member_result.submitted (st.do_read queue block_id buf callback), st)) ∧
      (∀ queue writes num_writes, ∃ batch,
        st.invoke T (member_call.do_write queue writes num_writes) =
          some (member_result.submitted
            [iosys_call.schedule_aio_write batch num_writes queue], st)) ∧
      (∀ b, st.invoke T (member_call.is_block_id_null b) =
        some (member_result.is_null (in_place_serializer_t.is_block_id_null T b), st)) ∧
      st.invoke T member_call.get_superblock_id =
        some (member_result.block_id (st.get_superblock_id T), st)) := by
  refine ⟨?_, ?_, ?_⟩
  · refine ⟨T.convert (s.dbsize / s.block_size),
      { s with dbsize := s.dbsize + s.block_size }, ?_, rfl, ?_, rfl, rfl⟩
    · show (s.gen_block_id T).map (fun r => (member_result.block_id r.1, r.2)) = _
      rw [gen_block_id_in_range T s hbs hd hov]
      rfl
    · show s.dbsize + s.block_size ≠ s.dbsize
      omega
  · intro st hst
    refine ⟨T.convert (off64_t.convert (size_t.convert st.dbsize / st.block_size)),
      { st with dbsize := off64_t.convert (st.dbsize + st.block_size) }, ?_, rfl, rfl, rfl⟩
    show (st.gen_block_id T).map (fun r => (member_result.block_id r.1, r.2)) = _
    rw [gen_block_id_wrap T st hst]
    rfl
  · intro st
    refine ⟨fun _ => rfl, fun _ _ _ _ => rfl, ?_, fun _ => rfl, rfl⟩
    intro queue writes num_writes
    exact ⟨(st.do_write_loop writes num_writes 0
      (Array.mkArray num_writes.toNat default)).toList, rfl⟩

/-- Witness of C12 (amended): a serializer of three 4096-byte blocks. -/
theorem cursor_moved_only_by_allocation_witness :
    (0 : Int) < 4096 ∧ (0 : Int) ≤ 12288 ∧ (12288 : Int) + 4096 ≤ off64_t.max_value ∧
    ∃ id s1, in_place_serializer_t.invoke off64_t ⟨4096, 3, 12288⟩ member_call.gen_block_id
        = some (member_result.block_id id, s1) ∧
      s1.dbsize = 12288 + 4096 ∧ s1.dbsize ≠ 12288 ∧ s1.block_size = 4096 ∧ s1.dbfd = 3 :=
  ⟨by decide, by decide, by decide,
    (cursor_moved_only_by_allocation off64_t ⟨4096, 3, 12288⟩
      (by decide) (by decide) (by decide)).1⟩

/-- C12 (counterexample): on the state of a file of `2^63 - 4096` bytes with
4096-byte blocks `gen_block_id` leaves the cursor at `-2^63`, which is not the
old cursor plus `block_size`; and with `block_size = 0` `gen_block_id` divides
by zero and gives back nothing. -/
theorem cursor_change_not_exact :
    (fun T => (in_place_serializer_t.invoke T ⟨4096, 3, 2 ^ 63 - 4096⟩
        member_call.gen_block_id).map Prod.snd) = (fun _ => some ⟨4096, 3, -(2 ^ 63)⟩) ∧
    (-(2 ^ 63) : Int) ≠ (2 ^ 63 - 4096) + 4096 ∧
    (fun T => (in_place_serializer_t.invoke T ⟨0, 3, 4096⟩ member_call.gen_block_id).map
        Prod.snd) = (fun _ => none) := by
  refine ⟨?_, by decide, ?_⟩
  · funext T
    show ((in_place_serializer_t.gen_block_id T ⟨4096, 3, 2 ^ 63 - 4096⟩).map
      (fun r => (member_result.block_id r.1, r.2))).map Prod.snd = _
    rw [gen_block_id_wrap T _ (by decide)]
    rfl
  · funext T
    rfl

/-! ## C13: `do_write` invokes no completion callback -/

/-- C13: for every batch of `num_writes ≥ 0` write requests and every engine,
what happens during a call of `do_write` is its one submission followed by
whatever the engine does inside that submission: `do_write` itself invokes no
callback, it stores the callback of `writes[i]` in entry `i` of the batch it
submits; so with an engine that does not complete inline no completion happens
before `do_write` returns. -/
theorem do_write_invokes_no_callback (s : in_place_serializer_t) (engine : io_engine)
    (queue : Nat) (writes : Nat → write) (num_writes : Int) (hn : 0 ≤ num_writes) :
    ∃ batch,
      s.do_write_events engine queue writes num_writes =
        some (io_event.submitted (iosys_call.schedule_aio_write batch num_writes queue) ::
          (engine.inline_completions
            (iosys_call.schedule_aio_write batch num_writes queue)).map io_event.completed) ∧
      (batch.length : Int) = num_writes ∧
      (∀ i : Nat, (i : Int) < num_writes →
        batch[i]?.map aio_write_t.callback = some (writes i).callback) ∧
      ((∀ c, engine.inline_completions c = []) →
        s.do_write_events engine queue writes num_writes =
          some [io_event.submitted (iosys_call.schedule_aio_write batch num_writes queue)] ∧
        ∀ evs, s.do_write_events engine queue writes num_writes = some evs →
          ∀ callback, io_event.completed callback ∉ evs) := by
  obtain ⟨batch, hb, hlen, hent⟩ := do_write_eq s queue writes num_writes hn
  have hev : s.do_write_events engine queue writes num_writes =
      some (io_event.submitted (iosys_call.schedule_aio_write batch num_writes queue) ::
        (engine.inline_completions
          (iosys_call.schedule_aio_write batch num_writes queue)).map io_event.completed) := by
    unfold in_place_serializer_t.do_write_events
    rw [hb]
    simp
  refine ⟨batch, hev, hlen, ?_, ?_⟩
  · intro i hi
    rw [hent i hi]
    rfl
  · intro hsilent
    rw [hev, hsilent]
    refine ⟨rfl, ?_⟩
    intro evs h callback hmem
    simp only [List.map_nil, Option.some.injEq] at h
    subst h
    simp at hmem

/-- Witness of C13: a batch of two writes and an engine that completes nothing
inline. -/
theorem do_write_invokes_no_callback_witness :
    (0 : Int) ≤ 2 ∧
    ∃ batch,
      in_place_serializer_t.do_write_events ⟨4096, 3, 12288⟩ ⟨fun _ => []⟩ 7
          (fun i => ⟨(i : Int) + 1, 100 + i, 200 + i⟩) 2 =
        some [io_event.submitted (iosys_call.schedule_aio_write batch 2 7)] ∧
      (batch.length : Int) = 2 ∧
      ∀ i : Nat, (i : Int) < 2 → batch[i]?.map aio_write_t.callback = some (200 + i) := by
  obtain ⟨batch, _, hlen, hcb, hs⟩ :=
    do_write_invokes_no_callback ⟨4096, 3, 12288⟩ ⟨fun _ => []⟩ 7
      (fun i => ⟨(i : Int) + 1, 100 + i, 200 + i⟩) 2 (by decide)
  exact ⟨by decide, batch, (hs (fun _ => rfl)).1, hlen, hcb⟩

/-! ## C14: slots of distinct identifiers do not overlap -/

/-- The offset of an identifier `id ≥ 0` whose product with a positive block
size is an `off64_t` value. -/
theorem id_to_offset_in_range (s : in_place_serializer_t) (id : Int)
    (hid : 0 ≤ id) (hbs : 0 < s.block_size)
    (hprod : id * s.block_size ≤ off64_t.max_value) :
    s.id_to_offset id = id * s.block_size := by
  unfold in_place_serializer_t.id_to_offset
  have hle : id ≤ id * s.block_size := le_mul_of_one_le_right hid (by omega)
  have hp0 : 0 ≤ id * s.block_size := Int.mul_nonneg hid (le_of_lt hbs)
  rw [size_t_convert_of_off64 id hid (by omega)]
  rw [size_t_convert_of_off64 _ hp0 hprod]
  rw [off64_t_convert_of_nonneg _ hp0 hprod]

/-- C14 (amended): for every `block_size > 0` and identifiers `0 ≤ i < j` whose
offsets are representable (`j * block_size ≤ 2^63 - 1`), the slot of `i` starts
at `id_to_offset i = i * block_size`, the next slot starts where it ends
(`id_to_offset (i + 1) = id_to_offset i + block_size`), the slot of `i` ends
before the slot of `j` starts, so the byte ranges
`[id_to_offset i, id_to_offset i + block_size)` and
`[id_to_offset j, id_to_offset j + block_size)` share no byte; and
`id_to_offset` is injective on the identifiers whose offsets are
representable. -/
theorem slots_do_not_overlap (s : in_place_serializer_t) (i j : Int)
    (hbs : 0 < s.block_size) (hi : 0 ≤ i) (hij : i < j)
    (hj : j * s.block_size ≤ off64_t.max_value) :
    s.id_to_offset i = i * s.block_size ∧
    s.id_to_offset (i + 1) = s.id_to_offset i + s.block_size ∧
    s.id_to_offset i + s.block_size ≤ s.id_to_offset j ∧
    (∀ x, s.id_to_offset i ≤ x ∧ x < s.id_to_offset i + s.block_size →
      ¬ (s.id_to_offset j ≤ x ∧ x < s.id_to_offset j + s.block_size)) ∧
    (∀ a b, 0 ≤ a → 0 ≤ b → a * s.block_size ≤ off64_t.max_value →
      b * s.block_size ≤ off64_t.max_value → s.id_to_offset a = s.id_to_offset b → a = b) := by
  have hsucc : (i + 1) * s.block_size ≤ j * s.block_size :=
    Int.mul_le_mul_of_nonneg_right (by omega) (le_of_lt hbs)
  have hexp : (i + 1) * s.block_size = i * s.block_size + s.block_size := by ring
  have hoi := id_to_offset_in_range s i hi hbs (by omega)
  have hoi1 := id_to_offset_in_range s (i + 1) (by omega) hbs (by omega)
  have hoj := id_to_offset_in_range s j (by omega) hbs hj
  refine ⟨hoi, ?_, ?_, ?_, ?_⟩
  · rw [hoi1, hoi, hexp]
  · rw [hoi, hoj]; omega
  · rintro x ⟨_, hx2⟩ ⟨hx3, _⟩
    rw [hoi] at hx2
    rw [hoj] at hx3
    omega
  · intro a b ha hb hpa hpb hab
    rw [id_to_offset_in_range s a ha hbs hpa, id_to_offset_in_range s b hb hbs hpb] at hab
    exact Int.eq_of_mul_eq_mul_right (ne_of_gt hbs) hab

/-- Witness of C14 (amended): blocks 1 and 3 of a file of 4096-byte blocks. -/
theorem slots_do_not_overlap_witness :
    (0 : Int) < 4096 ∧ (0 : Int) ≤ 1 ∧ (1 : Int) < 3 ∧
    in_place_serializer_t.id_to_offset ⟨4096, 3, 16384⟩ 1 = 1 * 4096 ∧
    in_place_serializer_t.id_to_offset ⟨4096, 3, 16384⟩ (1 + 1) =
      in_place_serializer_t.id_to_offset ⟨4096, 3, 16384⟩ 1 + 4096 ∧
    in_place_serializer_t.id_to_offset ⟨4096, 3, 16384⟩ 1 + 4096 ≤
      in_place_serializer_t.id_to_offset ⟨4096, 3, 16384⟩ 3 :=
  have h := slots_do_not_overlap ⟨4096, 3, 16384⟩ 1 3 (by decide) (by decide) (by decide)
    (by decide)
  ⟨by decide, by decide, by decide, h.1, h.2.1, h.2.2.1⟩

/-- C14 (counterexample): with `block_size = 2^62` the identifiers 1 and 2,
both returned by `gen_block_id` on a fresh serializer, have offsets `2^62` and
`-2^63`: the offset of 2 is not the offset of 1 plus `block_size`, and the slot
of 1 does not end before the slot of 2 starts; and with `block_size = 4096` the
identifiers 0 and `2^52` have the same offset 0. -/
theorem slots_overlap_after_overflow :
    (in_place_serializer_t.gen_block_ids off64_t 2 ⟨2 ^ 62, 3, 2 ^ 62⟩).map Prod.fst
      = some [1, 2] ∧
    in_place_serializer_t.id_to_offset ⟨2 ^ 62, 3, 2 ^ 62⟩ 1 = 2 ^ 62 ∧
    in_place_serializer_t.id_to_offset ⟨2 ^ 62, 3, 2 ^ 62⟩ (1 + 1) = -(2 ^ 63) ∧
    in_place_serializer_t.id_to_offset ⟨2 ^ 62, 3, 2 ^ 62⟩ (1 + 1) ≠
      in_place_serializer_t.id_to_offset ⟨2 ^ 62, 3, 2 ^ 62⟩ 1 + 2 ^ 62 ∧
    ¬ (in_place_serializer_t.id_to_offset ⟨2 ^ 62, 3, 2 ^ 62⟩ 1 + 2 ^ 62 ≤
      in_place_serializer_t.id_to_offset ⟨2 ^ 62, 3, 2 ^ 62⟩ 2) ∧
    in_place_serializer_t.id_to_offset ⟨4096, 3, 4096⟩ 0 =
      in_place_serializer_t.id_to_offset ⟨4096, 3, 4096⟩ (2 ^ 52) ∧
    (0 : Int) ≠ 2 ^ 52 := by
  refine ⟨rfl, by decide, by decide, by decide, by decide, by decide, by decide⟩

/-! ## C15: a fresh block is the slot appended at the end of the file -/

/-- C15 (amended): in every state with `block_size > 0` whose cursor is a
non-negative multiple of `block_size`, when the cursor does not overflow in the
call (`dbsize + block_size ≤ 2^63 - 1`) and the identifier fits `block_id_t`,
`gen_block_id` returns an `id` with `id_to_offset id` equal to the cursor
before the call and `id_to_offset id + block_size` equal to the cursor after
it, which is `block_size * (id + 1)`. -/
theorem fresh_block_is_appended_slot (T : int_type) (s : in_place_serializer_t)
    (hbs : 0 < s.block_size) (hd : 0 ≤ s.dbsize) (hmul : s.dbsize % s.block_size = 0)
    (hov : s.dbsize + s.block_size ≤ off64_t.max_value)
    (hfit : s.dbsize / s.block_size ≤ T.max_value) :
    ∃ id s1, s.gen_block_id T = some (id, s1) ∧
      s.id_to_offset id = s.dbsize ∧
      s1.id_to_offset id + s1.block_size = s1.dbsize ∧
      s1.dbsize = s1.block_size * (id + 1) := by
  have hq0 : 0 ≤ s.dbsize / s.block_size := Int.ediv_nonneg hd (le_of_lt hbs)
  have hqm : s.dbsize / s.block_size * s.block_size = s.dbsize :=
    Int.ediv_mul_cancel (Int.dvd_of_emod_eq_zero hmul)
  have hid : T.convert (s.dbsize / s.block_size) = s.dbsize / s.block_size :=
    int_type.convert_of_range T _ (by have := (int_type.small_range T).1; omega) hfit
  have hoff : s.id_to_offset (s.dbsize / s.block_size) = s.dbsize := by
    rw [id_to_offset_in_range s _ hq0 hbs (by rw [hqm]; omega), hqm]
  refine ⟨s.dbsize / s.block_size, { s with dbsize := s.dbsize + s.block_size }, ?_, hoff, ?_, ?_⟩
  · rw [gen_block_id_in_range T s hbs hd hov, hid]
  · show s.id_to_offset (s.dbsize / s.block_size) + s.block_size = s.dbsize + s.block_size
    rw [hoff]
  · show s.dbsize + s.block_size = s.block_size * (s.dbsize / s.block_size + 1)
    rw [mul_add, mul_one, mul_comm, hqm]

/-- Witness of C15 (amended): the fourth block of a file of 4096-byte blocks. -/
theorem fresh_block_is_appended_slot_witness :
    (0 : Int) < 4096 ∧ (0 : Int) ≤ 12288 ∧ (12288 : Int) % 4096 = 0 ∧
    ∃ id s1, in_place_serializer_t.gen_block_id off64_t ⟨4096, 3, 12288⟩ = some (id, s1) ∧
      in_place_serializer_t.id_to_offset ⟨4096, 3, 12288⟩ id = 12288 ∧
      s1.id_to_offset id + s1.block_size = s1.dbsize ∧
      s1.dbsize = s1.block_size * (id + 1) :=
  ⟨by decide, by decide, by decide,
    fresh_block_is_appended_slot off64_t ⟨4096, 3, 12288⟩
      (by decide) (by decide) (by decide) (by decide) (by decide)⟩

/-- C15 (counterexample): with `block_size = 2^62` and the cursor at `2^62` (a
multiple of `block_size`, the state after construction over an empty file)
`gen_block_id` returns 1, whose offset `2^62` is the cursor before the call,
but the cursor after the call is `-2^63`, not `id_to_offset 1 + block_size` and
not `block_size * (1 + 1)`. -/
theorem fresh_block_past_cursor_range :
    (2 ^ 62 : Int) % 2 ^ 62 = 0 ∧
    (fun T => in_place_serializer_t.gen_block_id T ⟨2 ^ 62, 3, 2 ^ 62⟩)
      = (fun _ => some (1, ⟨2 ^ 62, 3, -(2 ^ 63)⟩)) ∧
    in_place_serializer_t.id_to_offset ⟨2 ^ 62, 3, 2 ^ 62⟩ 1 = 2 ^ 62 ∧
    in_place_serializer_t.id_to_offset ⟨2 ^ 62, 3, -(2 ^ 63)⟩ 1 + 2 ^ 62 ≠ -(2 ^ 63) ∧
    (-(2 ^ 63) : Int) ≠ 2 ^ 62 * (1 + 1) := by
  refine ⟨by decide, ?_, by decide, by decide, by decide⟩
  funext T
  obtain ⟨w, sg⟩ := T
  cases w <;> cases sg <;> rfl

/-! ## C16: a non-zero length found is trusted as it is -/

/-- C17: for every `block_size > 0` and every cursor `dbsize > 0` (an `off64_t`
value) that is not a multiple of `block_size`, `gen_block_id` returns an `id`
(a value of `block_id_t`) whose slot contains the byte before which the file
ends: `id_to_offset id < dbsize < id_to_offset id + block_size`, with the
cursor before the call; and when `0 < dbsize < block_size` that `id` is 0, the
superblock identifier. -/
theorem misaligned_cursor_overlaps (T : int_type) (s : in_place_serializer_t)
    (hbs : 0 < s.block_size) (hd : 0 < s.dbsize) (hmax : s.dbsize ≤ off64_t.max_value)
    (hmis : s.dbsize % s.block_size ≠ 0)
    (hfit : s.dbsize / s.block_size ≤ T.max_value) :
    ∃ id, (s.gen_block_id T).map Prod.fst = some id ∧
      s.id_to_offset id < s.dbsize ∧
      s.dbsize < s.id_to_offset id + s.block_size ∧
      (s.dbsize < s.block_size → id = 0 ∧ id = s.get_superblock_id T) := by
  have hq0 : 0 ≤ s.dbsize / s.block_size := Int.ediv_nonneg (le_of_lt hd) (le_of_lt hbs)
  have hdecomp := Int.emod_add_ediv s.dbsize s.block_size
  have hr0 := Int.emod_nonneg s.dbsize (ne_of_gt hbs)
  have hr1 := Int.emod_lt_of_pos s.dbsize hbs
  have hcomm : s.dbsize / s.block_size * s.block_size = s.block_size * (s.dbsize / s.block_size) :=
    mul_comm _ _
  have hoff : s.id_to_offset (s.dbsize / s.block_size) =
      s.dbsize / s.block_size * s.block_size :=
    id_to_offset_in_range s _ hq0 hbs (by omega)
  refine ⟨s.dbsize / s.block_size, gen_block_id_fst T s hbs (le_of_lt hd) hmax hfit, ?_, ?_, ?_⟩
  · rw [hoff]; omega
  · rw [hoff]; omega
  · intro hlt
    have hz : s.dbsize / s.block_size = 0 := Int.ediv_eq_zero_of_lt (le_of_lt hd) hlt
    exact ⟨hz, by rw [hz, get_superblock_id_eq_zero]⟩

/-- Witness of C17: a cursor of 100 bytes with 4096-byte blocks; the identifier
returned is 0. -/
theorem misaligned_cursor_overlaps_witness :
    (0 : Int) < 4096 ∧ (0 : Int) < 100 ∧ (100 : Int) % 4096 ≠ 0 ∧
    ∃ id, (in_place_serializer_t.gen_block_id off64_t ⟨4096, 3, 100⟩).map Prod.fst = some id ∧
      in_place_serializer_t.id_to_offset ⟨4096, 3, 100⟩ id < 100 ∧
      100 < in_place_serializer_t.id_to_offset ⟨4096, 3, 100⟩ id + 4096 ∧
      ((100 : Int) < 4096 →
        id = 0 ∧ id = in_place_serializer_t.get_superblock_id off64_t ⟨4096, 3, 100⟩) :=
  ⟨by decide, by decide, by decide,
    misaligned_cursor_overlaps off64_t ⟨4096, 3, 100⟩
      (by decide) (by decide) (by decide) (by decide) (by decide)⟩

/-! ## Facts about the truncating remainder -/

/-- The truncating remainder of a negative dividend by a positive divisor lies
in `(-b, 0]`. -/
theorem tmod_of_neg (a b : Int) (ha : a < 0) (hb : 0 < b) :
    -b < Int.tmod a b ∧ Int.tmod a b ≤ 0 := by
  obtain ⟨n, rfl⟩ := Int.eq_negSucc_of_lt_zero ha
  obtain ⟨m, rfl⟩ := Int.eq_ofNat_of_zero_le (le_of_lt hb)
  have hm : 0 < m := by omega
  have h : Int.tmod (Int.negSucc n) (m : Int) = -(((n + 1) % m : Nat) : Int) := rfl
  rw [h]
  have := Nat.mod_lt (n + 1) hm
  omega

/-- The correction `x < 0 ? x + alignment : x` of `ceil_modulo` turns the
truncating remainder into the remainder in `[0, b)`. -/
theorem tmod_corrected (a b : Int) (hb : 0 < b) :
    (if Int.tmod a b < 0 then Int.tmod a b + b else Int.tmod a b) = a % b := by
  rcases le_or_lt 0 a with ha | ha
  · have h := Int.tmod_eq_emod ha (le_of_lt hb)
    have h0 := Int.emod_nonneg a (ne_of_gt hb)
    rw [h, if_neg (by omega)]
  · obtain ⟨h1, h2⟩ := tmod_of_neg a b ha hb
    have hd := Int.tmod_add_tdiv a b
    split
    · have hq : Int.tmod a b + b + b * (Int.tdiv a b - 1) = a := by
        rw [mul_sub, mul_one]; omega
      exact ((@Int.ediv_emod_unique a b (Int.tmod a b + b) (Int.tdiv a b - 1) hb).mpr
        ⟨hq, by omega, by omega⟩).2.symm
    · exact ((@Int.ediv_emod_unique a b (Int.tmod a b) (Int.tdiv a b) hb).mpr
        ⟨hd, by omega, by omega⟩).2.symm

/-- The value `b * ((v + b - 1) / b)`, for a positive `b`, is the least
multiple of `b` that is at least `v`. -/
theorem least_multiple_above (v b : Int) (hb : 0 < b) :
    b * ((v + b - 1) / b) = v + b - 1 - (v + b - 1) % b ∧
    (b * ((v + b - 1) / b)) % b = 0 ∧
    v ≤ b * ((v + b - 1) / b) ∧
    b * ((v + b - 1) / b) < v + b ∧
    ∀ m, b ∣ m → v ≤ m → b * ((v + b - 1) / b) ≤ m := by
  have hd := Int.emod_add_ediv (v + b - 1) b
  have h0 := Int.emod_nonneg (v + b - 1) (ne_of_gt hb)
  have h1 := Int.emod_lt_of_pos (v + b - 1) hb
  refine ⟨by omega, Int.mul_emod_right _ _, by omega, by omega, ?_⟩
  rintro m ⟨k, rfl⟩ hm
  have hlt : (v + b - 1) / b < k + 1 := by
    apply Int.ediv_lt_of_lt_mul hb
    have : (k + 1) * b = b * k + b := by ring
    omega
  exact Int.mul_le_mul_of_nonneg_left (by omega) (le_of_lt hb)

/-- Closed form of `ceil_aligned` on a non-negative value and a positive
alignment. -/
theorem ceil_aligned_eq (v a : Int) (hv : 0 ≤ v) (ha : 0 < a) :
    ceil_aligned v a = some (a * ((v + a - 1) / a)) := by
  unfold ceil_aligned
  rw [if_neg (by omega), Int.tmod_eq_emod (by omega) (le_of_lt ha)]
  have := (least_multiple_above v a ha).1
  congr 1
  omega

/-- Closed form of `ceil_modulo` on any value and a positive alignment. -/
theorem ceil_modulo_eq (v a : Int) (ha : 0 < a) :
    ceil_modulo v a = some (a * ((v + a - 1) / a)) := by
  unfold ceil_modulo
  rw [if_neg (by omega)]
  simp only [tmod_corrected _ _ ha]
  have := (least_multiple_above v a ha).1
  congr 1
  omega

/-- Closed form of `floor_aligned` on a non-negative value and a positive
alignment. -/
theorem floor_aligned_eq (v a : Int) (hv : 0 ≤ v) (ha : 0 < a) :
    floor_aligned v a = some (v - v % a) := by
  unfold floor_aligned
  rw [if_neg (by omega), Int.tmod_eq_emod hv (le_of_lt ha)]

/-! ## C18: `ceil_aligned` rounds a non-negative value up -/

/-- C18: for every integer `value ≥ 0` and `alignment > 0`, `ceil_aligned`
returns the least multiple of `alignment` that is at least `value`: the result
`r` satisfies `r % alignment == 0` and `value ≤ r < value + alignment`, no
smaller multiple is at least `value`, and `r = value` when `value` is a
multiple; `ceil_aligned` applied to `r` returns `r` again, and `r` is
`ceil_divide(value, alignment) * alignment`. -/
theorem ceil_aligned_least_multiple (value alignment : Int)
    (hv : 0 ≤ value) (ha : 0 < alignment) :
    ∃ r, ceil_aligned value alignment = some r ∧
      Int.tmod r alignment = 0 ∧ value ≤ r ∧ r < value + alignment ∧
      (∀ m, Int.tmod m alignment = 0 → value ≤ m → r ≤ m) ∧
      (Int.tmod value alignment = 0 → r = value) ∧
      ceil_aligned r alignment = some r ∧
      (ceil_divide value alignment).map (fun q => q * alignment) = some r := by
  obtain ⟨_, _, h3, h4, h5⟩ := least_multiple_above value alignment ha
  have hleast : ∀ m, Int.tmod m alignment = 0 → value ≤ m →
      alignment * ((value + alignment - 1) / alignment) ≤ m :=
    fun m hm hle => h5 m (Int.dvd_of_tmod_eq_zero hm) hle
  refine ⟨_, ceil_aligned_eq value alignment hv ha,
    Int.tmod_eq_zero_of_dvd (Dvd.intro _ rfl), h3, h4, hleast, ?_, ?_, ?_⟩
  · intro hm
    exact le_antisymm (hleast value hm (le_refl _)) h3
  · obtain ⟨_, _, g3, _, g5⟩ :=
      least_multiple_above (alignment * ((value + alignment - 1) / alignment)) alignment ha
    rw [ceil_aligned_eq _ alignment (by omega) ha]
    exact congrArg some (le_antisymm (g5 _ (Dvd.intro _ rfl) (le_refl _)) g3)
  · unfold ceil_divide
    rw [if_neg (by omega), Int.tdiv_eq_ediv (by omega) (le_of_lt ha)]
    exact congrArg some (mul_comm _ _)

/-- Witness of C18: the value 5 aligned to 4 is 8. -/
theorem ceil_aligned_least_multiple_witness :
    (0 : Int) ≤ 5 ∧ (0 : Int) < 4 ∧
    ∃ r, ceil_aligned 5 4 = some r ∧
      Int.tmod r 4 = 0 ∧ 5 ≤ r ∧ r < 5 + 4 ∧
      (∀ m, Int.tmod m 4 = 0 → 5 ≤ m → r ≤ m) ∧
      (Int.tmod 5 4 = 0 → r = 5) ∧
      ceil_aligned r 4 = some r ∧
      (ceil_divide 5 4).map (fun q => q * 4) = some r :=
  ⟨by decide, by decide, ceil_aligned_least_multiple 5 4 (by decide) (by decide)⟩

/-! ## C19: `ceil_modulo` rounds any value up -/

/-- C19: for every integer `value` (negative, zero or positive) and
`alignment > 0`, `ceil_modulo`, evaluated with the truncating `%`, returns the
least multiple of `alignment` that is at least `value`; it agrees with
`ceil_aligned` for every `value ≥ 0`; while for `value = -5`, `alignment = 4`
`ceil_aligned` returns 0, which is neither the -4 that `ceil_modulo` returns
nor the least multiple at least -5. -/
theorem ceil_modulo_least_multiple (value alignment : Int) (ha : 0 < alignment) :
    (∃ r, ceil_modulo value alignment = some r ∧
      Int.tmod r alignment = 0 ∧ value ≤ r ∧ r < value + alignment ∧
      (∀ m, Int.tmod m alignment = 0 → value ≤ m → r ≤ m) ∧
      (0 ≤ value → ceil_aligned value alignment = some r)) ∧
    (ceil_aligned (-5) 4 = some 0 ∧ ceil_modulo (-5) 4 = some (-4) ∧
      Int.tmod (-4) 4 = 0 ∧ (-5 : Int) ≤ -4 ∧ (-4 : Int) < 0) := by
  obtain ⟨_, _, h3, h4, h5⟩ := least_multiple_above value alignment ha
  refine ⟨⟨_, ceil_modulo_eq value alignment ha, Int.tmod_eq_zero_of_dvd (Dvd.intro _ rfl),
    h3, h4, fun m hm hle => h5 m (Int.dvd_of_tmod_eq_zero hm) hle,
    fun hv => ceil_aligned_eq value alignment hv ha⟩, ?_⟩
  decide

/-- Witness of C19: the value -5 aligned to 4 is -4. -/
theorem ceil_modulo_least_multiple_witness :
    (0 : Int) < 4 ∧
    ∃ r, ceil_modulo (-5) 4 = some r ∧
      Int.tmod r 4 = 0 ∧ -5 ≤ r ∧ r < -5 + 4 ∧
      (∀ m, Int.tmod m 4 = 0 → -5 ≤ m → r ≤ m) ∧
      ((0 : Int) ≤ -5 → ceil_aligned (-5) 4 = some r) :=
  ⟨by decide, (ceil_modulo_least_multiple (-5) 4 (by decide)).1⟩

/-! ## C20: `floor_aligned` rounds a non-negative value down -/

/-- C20: for every integer `value ≥ 0` and `alignment > 0`, `floor_aligned`
returns the greatest multiple of `alignment` that is at most `value`: the
result `r` satisfies `r % alignment == 0` and `r ≤ value < r + alignment`, and
no greater multiple is at most `value`; and `divides(alignment, value)` holds
if and only if `floor_aligned(value, alignment) == value`. -/
theorem floor_aligned_greatest_multiple (value alignment : Int)
    (hv : 0 ≤ value) (ha : 0 < alignment) :
    ∃ r, floor_aligned value alignment = some r ∧
      Int.tmod r alignment = 0 ∧ r ≤ value ∧ value < r + alignment ∧
      (∀ m, Int.tmod m alignment = 0 → m ≤ value → m ≤ r) ∧
      (divides alignment value = some true ↔ r = value) := by
  have hd := Int.emod_add_ediv value alignment
  have h0 := Int.emod_nonneg value (ne_of_gt ha)
  have h1 := Int.emod_lt_of_pos value ha
  have hr : value - value % alignment = alignment * (value / alignment) := by omega
  refine ⟨_, floor_aligned_eq value alignment hv ha, ?_, by omega, by omega, ?_, ?_⟩
  · rw [hr]
    exact Int.tmod_eq_zero_of_dvd (Dvd.intro _ rfl)
  · intro m hm hle
    obtain ⟨k, rfl⟩ := Int.dvd_of_tmod_eq_zero hm
    rw [hr]
    have hk : k ≤ value / alignment :=
      Int.le_ediv_of_mul_le ha (by rw [mul_comm]; exact hle)
    exact Int.mul_le_mul_of_nonneg_left hk (le_of_lt ha)
  · unfold divides
    rw [if_neg (by omega), Int.tmod_eq_emod hv (le_of_lt ha)]
    simp only [Option.some.injEq, beq_iff_eq]
    constructor
    · intro h; omega
    · intro h; omega

/-- Witness of C20: the value 9 aligned down to 4 is 8, and 4 does not divide 9. -/
theorem floor_aligned_greatest_multiple_witness :
    (0 : Int) ≤ 9 ∧ (0 : Int) < 4 ∧
    ∃ r, floor_aligned 9 4 = some r ∧
      Int.tmod r 4 = 0 ∧ r ≤ 9 ∧ 9 < r + 4 ∧
      (∀ m, Int.tmod m 4 = 0 → m ≤ 9 → m ≤ r) ∧
      (divides 4 9 = some true ↔ r = 9) :=
  ⟨by decide, by decide, floor_aligned_greatest_multiple 9 4 (by decide) (by decide)⟩
